import Mathlib

/-! Containerd network attachments: store, network, manager, services, collectors.

A shallow embedding of the `networks` package (`store.go`, `network.go`,
`attach.go`, `manager.go`, `options.go`, `service.go`, `proxy.go`, `gc.go`), of
the local service adapter and the RPC service (`services/networks/local.go`,
`services/networks/service.go`), of the resource collector of the package
`network` (`network/gc.go`), of the client side (`networks.go`) and of the ID
maps of user namespaces (`pkg/sys/userns/idmap.go`).

Conventions of the embedding

* Go values that are mutated through a pointer are passed and returned
  explicitly: a method on `*store` takes the store and returns the new store.
* A Go `(value, error)` result is an `Outcome`; a bare `error` is an
  `Option GoError` (`none` is `nil`).  A runtime panic is `Outcome.fault`.
* A Go `map[string]T` is an association list with at most one entry per key
  (`GoMap`).  Go iterates a map in an unspecified order; the list order stands
  for whichever order one run takes.  A `nil` map is `none`.
* A callback `func(x) error` with side effects on its captured variables is a
  function `σ → x → σ × Option GoError` over the captured state `σ`.
-/

namespace Containerd

/-! ## Errors and results -/

/-- The error kinds of `errdefs` that the packages under study refer to. -/
inductive ErrKind where
  | NotFound
  | AlreadyExists
  | InvalidArgument
  | FailedPrecondition
  | NotImplemented
  | Unknown
  deriving DecidableEq, Repr

/-- The gRPC status codes (`google.golang.org/grpc/codes`) that the error kinds
are sent as. -/
inductive Code where
  | Unknown
  | InvalidArgument
  | NotFound
  | AlreadyExists
  | FailedPrecondition
  | Unimplemented
  deriving DecidableEq, Repr

/-- Go error values.  `errorf msg` is `fmt.Errorf(msg)` without a wrapped
error, `wrapf msg e` is `fmt.Errorf(msg + "%w", e)`, `errdef k` is the sentinel
`errdefs.Err<k>`, `txNotWritable` is `bolt.ErrTxNotWritable` and
`grpcStatus c msg` is a gRPC status error (`status.Errorf(c, msg)`). -/
inductive GoError where
  | errorf (msg : String)
  | wrapf (msg : String) (cause : GoError)
  | errdef (k : ErrKind)
  | txNotWritable
  | grpcStatus (code : Code) (msg : String)
  deriving DecidableEq, Repr

/-- The result of a Go function returning `(value, error)`; `fault` is a
runtime panic (nil map write, nil dereference). -/
inductive Outcome (α : Type) where
  | ok (a : α)
  | error (e : GoError)
  | fault (msg : String)
  deriving DecidableEq, Repr

/-- A bare Go `error` result seen as an outcome without value. -/
def Outcome.ofError : Option GoError → Outcome Unit
  | none => .ok ()
  | some e => .error e

/-- Is the outcome the return of a non-nil error. -/
def Outcome.isError {α : Type} : Outcome α → Bool
  | .error _ => true
  | _ => false

/-- Is the outcome a runtime panic. -/
def Outcome.isFault {α : Type} : Outcome α → Bool
  | .fault _ => true
  | _ => false

/-- Is the outcome a normal return without error. -/
def Outcome.isOk {α : Type} : Outcome α → Bool
  | .ok _ => true
  | _ => false

/-! ## Go maps -/

/-- A Go `map[string]α`: association list, one entry per key. -/
abbrev GoMap (α : Type) := List (String × α)

/-- The map read `v, ok := m[k]`. -/
def mapGet {α : Type} (m : GoMap α) (k : String) : Option α :=
  match m with
  | [] => none
  | (k', v) :: rest => if k' = k then some v else mapGet rest k

/-- The statement `delete(m, k)`. -/
def mapDelete {α : Type} (m : GoMap α) (k : String) : GoMap α :=
  m.filter (fun p => p.1 ≠ k)

/-- The assignment `m[k] = v`: the entry of `k`, if any, is replaced. -/
def mapSet {α : Type} (m : GoMap α) (k : String) (v : α) : GoMap α :=
  mapDelete m k ++ [(k, v)]

/-- The write through the pointer stored under `k`: the value of `k` is
replaced where it stands; a map without `k` is unchanged. -/
def mapReplace {α : Type} (m : GoMap α) (k : String) (v : α) : GoMap α :=
  m.map (fun p => if p.1 = k then (k, v) else p)

/-- The keys of a map, in iteration order. -/
def mapKeys {α : Type} (m : GoMap α) : List String := m.map Prod.fst

/-- The values of a map, in iteration order. -/
def mapValues {α : Type} (m : GoMap α) : List α := m.map Prod.snd

/-! ## fmt.Sprintf -/

/-- The part of `fmt.Sprintf` used by the package: the verb `%s` consumes the
next string operand, `%%` prints a percent sign, every other character is
copied.  A `%s` without operand prints `%!s(MISSING)`, as in Go. -/
def sprintfAux : List Char → List String → List Char
  | '%' :: 's' :: rest, a :: args => a.data ++ sprintfAux rest args
  | '%' :: 's' :: rest, [] => "%!s(MISSING)".data ++ sprintfAux rest []
  | '%' :: '%' :: rest, args => '%' :: sprintfAux rest args
  | c :: rest, args => c :: sprintfAux rest args
  | [], _ => []

/-- The call `fmt.Sprintf(format, args...)` with string operands. -/
def Sprintf (format : String) (args : List String) : String :=
  ⟨sprintfAux format.data args⟩

/-! ## Contexts, transactions and the database -/

/-- A `*bolt.Tx`; the store only asks whether it is writable. -/
structure Tx where
  writable : Bool
  deriving DecidableEq, Repr

/-- A `context.Context`: the namespace it carries (field `ns`, read by
`namespaces.NamespaceRequired`) and the ambient transaction stored under
`transactionKey{}`. -/
structure Context where
  ns : Option String := none
  tx : Option Tx := none
  deriving DecidableEq, Repr

/-- Modelled from the spec: `namespaces.NamespaceRequired` lives in the
`namespaces` package, which is not among the sources; the spec describes it as
the capability `NamespaceRequired(ctx) → (namespace, error)` that fails when no
namespace can be resolved from the context. -/
def NamespaceRequired (ctx : Context) : Outcome String :=
  match ctx.ns with
  | some ns => .ok ns
  | none => .error (.wrapf "namespace is required: " (.errdef .FailedPrecondition))

/-- The `DB` interface of `store.go` (`View`, `Update`), implemented by bbolt.
The database runs the closure once inside a fresh transaction.  `beginErr` is
the error with which the database refuses to start a transaction (the closure
is then not run) and `commitErr` the error of the commit that `Update` performs
after the closure returned `nil`. -/
structure DB where
  beginErr : Option GoError := none
  commitErr : Option GoError := none
  deriving DecidableEq, Repr

/-- The call `db.View(fn)`: a read-only transaction. -/
def DB.View {σ : Type} (db : DB) (fn : Tx → σ → σ × Option GoError) (st : σ) :
    σ × Option GoError :=
  match db.beginErr with
  | some e => (st, some e)
  | none => fn { writable := false } st

/-- The call `db.Update(fn)`: a writable transaction, committed when the
closure returns `nil`. -/
def DB.Update {σ : Type} (db : DB) (fn : Tx → σ → σ × Option GoError) (st : σ) :
    σ × Option GoError :=
  match db.beginErr with
  | some e => (st, some e)
  | none =>
    match fn { writable := true } st with
    | (st', some e) => (st', some e)
    | (st', none) => (st', db.commitErr)

/-! ## Data model (`types.go`, `service.go`, `options.go`, `store.go`) -/

/-- The Go type `NetworkConfigType` (an `int`). -/
abbrev NetworkConfigType := Int

/-- The constant `NetworkConfigInvalid`. -/
def NetworkConfigInvalid : NetworkConfigType := 0

/-- The constant `NetworkConfigConfList`. -/
def NetworkConfigConfList : NetworkConfigType := 1

/-- The constant `NetworkConfigConf`. -/
def NetworkConfigConf : NetworkConfigType := 2

/-- The struct `NetworkConfig`; `Type_` is the field `Type`, `Bytes` a byte slice. -/
structure NetworkConfig where
  Type_ : NetworkConfigType := 0
  Bytes : List Nat := []
  deriving DecidableEq, Repr

/-- The struct `NetworkInfo`. -/
structure NetworkInfo where
  Manager : String := ""
  Name : String := ""
  Config : NetworkConfig := {}
  deriving DecidableEq, Repr

/-- The struct `IPConfig`; a `net.IP` is a byte slice. -/
structure IPConfig where
  IP : List Nat := []
  Gateway : List Nat := []
  deriving DecidableEq, Repr

/-- The struct `Interface`. -/
structure Interface where
  Name : String := ""
  IPs : List IPConfig := []
  Mac : String := ""
  Sandbox : String := ""
  deriving DecidableEq, Repr

/-- The struct `Route`; `Dst` is a `net.IPNet` (address and mask). -/
structure Route where
  Dst : List Nat × List Nat := ([], [])
  GW : List Nat := []
  deriving DecidableEq, Repr

/-- The struct `DNS`. -/
structure DNS where
  Servers : List String := []
  Searches : List String := []
  Options : List String := []
  deriving DecidableEq, Repr

/-- The struct `AttachmentInfo`; the defaults are Go's zero values. -/
structure AttachmentInfo where
  ID : String := ""
  Manager : String := ""
  Network : String := ""
  Lease : String := ""
  Interfaces : List Interface := []
  Routes : List Route := []
  DNS : DNS := {}
  deriving DecidableEq, Repr

/-- The struct `AttachmentArgs`.  The two maps are `nil` in the zero value;
the `interface{}` values of `CapabilityArgs` are kept as strings. -/
structure AttachmentArgs where
  Container : String := ""
  NetNS : String := ""
  IFName : String := ""
  CapabilityArgs : Option (GoMap String) := none
  PluginArgs : Option (GoMap String) := none
  deriving DecidableEq, Repr

/-- The struct `AttachmentRecord`.  `Args` is a pointer, `Result` an interface
value (both `nil` in the zero value); the times are seconds, zero when unset. -/
structure AttachmentRecord where
  ID : String := ""
  Args : Option AttachmentArgs := none
  Labels : Option (GoMap String) := none
  Status : Int := 0
  Result : Option String := none
  CreatedAt : Nat := 0
  UpdatedAt : Nat := 0
  deriving DecidableEq, Repr

/-- The struct `AttachmentFilter`. -/
structure AttachmentFilter where
  Container : String := ""
  IFname : String := ""
  deriving DecidableEq, Repr

/-- The type `AttachmentFilterOption`. -/
abbrev AttachmentFilterOption := AttachmentFilter → Outcome AttachmentFilter

/-- The type `AttachmentOption`: a closure that edits the arguments in place
and returns an error; it may also panic. -/
abbrev AttachmentOption := AttachmentArgs → Outcome AttachmentArgs

/-- The type `NetworkOption`. -/
abbrev NetworkOption := NetworkInfo → Outcome NetworkInfo

/-! ## The attachment store (`store.go`) -/

/-- The struct `store`: the database handle and the in-memory table `t`,
keyed by record ID.  The table holds pointers in Go; no code under study
writes through a stored pointer, so the table holds the records. -/
structure store where
  db : DB := {}
  t : GoMap AttachmentRecord := []
  deriving DecidableEq, Repr

/-- The method `store.view`: use the transaction of the context when there is
one, otherwise open a read-only transaction. -/
def store.view {σ : Type} (s : store) (ctx : Context)
    (fn : Tx → σ → σ × Option GoError) (st : σ) : σ × Option GoError :=
  match ctx.tx with
  | none => s.db.View fn st
  | some tx => fn tx st

/-- The method `store.update`: use the transaction of the context when it is
writable, refuse it when it is not, otherwise open a writable transaction. -/
def store.update {σ : Type} (s : store) (ctx : Context)
    (fn : Tx → σ → σ × Option GoError) (st : σ) : σ × Option GoError :=
  match ctx.tx with
  | none => s.db.Update fn st
  | some tx =>
    if !tx.writable then
      (st, some (.wrapf "unable to use transaction from context: " .txNotWritable))
    else fn tx st

/-- The method `store.Create`: `s.t[r.ID] = r` inside `update`. -/
def store.Create (s : store) (ctx : Context) (_manager _network : String)
    (r : AttachmentRecord) : store × Option GoError :=
  let res := s.update ctx (fun _ t => (mapSet t r.ID r, none)) s.t
  ({ s with t := res.1 }, res.2)

/-- The method `store.Update`: the closure only returns `nil`. -/
def store.Update (s : store) (ctx : Context) (_manager _network : String)
    (_r : AttachmentRecord) : store × Option GoError :=
  let res := s.update ctx (fun _ t => (t, none)) s.t
  ({ s with t := res.1 }, res.2)

/-- The method `store.Get`: the closure looks the ID up in `s.t` and stores
the record in the captured variable.  A `nil` record returned with a `nil`
error, which the caller would dereference, is the `fault` branch; it does not
arise, since `view` either fails or runs the closure. -/
def store.Get (s : store) (ctx : Context) (_manager _network : String)
    (id : String) : Outcome AttachmentRecord :=
  let res := s.view ctx
    (fun _ (v : Option AttachmentRecord) =>
      match mapGet s.t id with
      | none => (v, some (.errorf "not found"))
      | some r => (some r, none))
    none
  match res.2 with
  | some e => .error e
  | none =>
    match res.1 with
    | some r => .ok r
    | none => .fault "nil record"

/-- The method `store.Walk`: the closure calls `fn` on every value of `s.t`
and drops what `fn` returns. -/
def store.Walk {σ : Type} (s : store) (ctx : Context) (_manager _network : String)
    (fn : σ → AttachmentRecord → σ × Option GoError) (st : σ) : σ × Option GoError :=
  s.view ctx
    (fun _ st0 => ((mapValues s.t).foldl (fun acc r => (fn acc r).1) st0, none))
    st

/-- The method `store.Delete`: fail when the ID is absent, else `delete`. -/
def store.Delete (s : store) (ctx : Context) (_manager _network : String)
    (id : String) : store × Option GoError :=
  let res := s.update ctx
    (fun _ t =>
      match mapGet t id with
      | none => (t, some (.errorf "not found"))
      | some _ => (mapDelete t id, none))
    s.t
  ({ s with t := res.1 }, res.2)

/-! ## Attachments and networks (`attach.go`, `network.go`) -/

/-- The struct `attachment`.  Its `cni` field is never set or used and its
`store` field points to the one store, which the embedding passes explicitly. -/
structure attachment where
  AttachmentInfo : AttachmentInfo := {}
  deriving DecidableEq, Repr

/-- The method `attachment.ID`. -/
def attachment.ID (a : attachment) (_ctx : Context) : String := a.AttachmentInfo.ID

/-- The method `attachment.Info`. -/
def attachment.Info (a : attachment) (_ctx : Context) : Containerd.AttachmentInfo :=
  a.AttachmentInfo

/-- The method `attachment.Remove`: it logs and returns `nil`; the store is
not touched. -/
def attachment.Remove (_a : attachment) (_ctx : Context) (s : store) :
    store × Option GoError :=
  (s, none)

/-- The method `attachment.Check`: it logs and returns `nil`. -/
def attachment.Check (_a : attachment) (_ctx : Context) : Option GoError := none

/-- The struct `network`.  The field `manager` is the `Manager` interface value
(`none` is `nil`, else the name of the manager it refers to); the `store` field
points to the one store, which the embedding passes explicitly. -/
structure network where
  NetworkInfo : NetworkInfo := {}
  manager : Option String := none
  deriving DecidableEq, Repr

/-- The method `network.Name`. -/
def network.Name (n : network) (_ctx : Context) : String := n.NetworkInfo.Name

/-- The method `network.Info`. -/
def network.Info (n : network) (_ctx : Context) : Containerd.NetworkInfo := n.NetworkInfo

/-- The function `generateAttachmentID`. -/
def generateAttachmentID (manager network namespace_ container ifname : String) : String :=
  Sprintf "%s/%s/%s/%s/%s" [manager, network, namespace_, container, ifname]

/-- The loop of `network.Attach` that applies the options in order and stops
at the first error. -/
def applyOptions : List AttachmentOption → AttachmentArgs → Outcome AttachmentArgs
  | [], args => .ok args
  | o :: rest, args =>
    match o args with
    | .ok args' => applyOptions rest args'
    | .error e => .error e
    | .fault msg => .fault msg

/-- The method `network.Attach`. -/
def network.Attach (n : network) (ctx : Context) (options : List AttachmentOption)
    (s : store) : store × Outcome attachment :=
  match NamespaceRequired ctx with
  | .error e => (s, .error e)
  | .fault msg => (s, .fault msg)
  | .ok ns =>
    match applyOptions options {} with
    | .error e => (s, .error e)
    | .fault msg => (s, .fault msg)
    | .ok args =>
      let r : AttachmentRecord :=
        { ID := generateAttachmentID n.NetworkInfo.Manager n.NetworkInfo.Name ns
                  args.Container args.IFName,
          Args := some args,
          Status := 0 }
      match s.Create ctx n.NetworkInfo.Manager n.NetworkInfo.Name r with
      | (s', some e) => (s', .error e)
      | (s', none) =>
        (s', .ok { AttachmentInfo :=
                    { Manager := n.NetworkInfo.Manager, Network := n.NetworkInfo.Name } })

/-- The method `network.Attachment`: the ID is only logged. -/
def network.Attachment (n : network) (_ctx : Context) (_id : String) : Outcome attachment :=
  .ok { AttachmentInfo := { Manager := n.NetworkInfo.Manager, Network := n.NetworkInfo.Name } }

/-- The method `network.Walk`: for every record the store visits, `fn` is
called on an attachment built from the network alone; what `fn` returns is
dropped. -/
def network.Walk {σ : Type} (n : network) (ctx : Context)
    (fn : σ → attachment → σ × Option GoError) (s : store) (st : σ) : σ × Option GoError :=
  s.Walk ctx n.NetworkInfo.Manager n.NetworkInfo.Name
    (fun acc _r =>
      ((fn acc { AttachmentInfo :=
                  { Manager := n.NetworkInfo.Manager, Network := n.NetworkInfo.Name } }).1,
       none))
    st

/-! ## The manager (`manager.go`) -/

/-- The struct `manager`: its name, directories and registry.  The lock and the
never-set `cni` are left out; the store is passed explicitly. -/
structure manager where
  name : String := ""
  binDir : String := ""
  confDir : String := ""
  networks : GoMap network := []
  deriving DecidableEq, Repr

/-- The method `manager.Create`: the options are not applied; the new network
takes the place of any network registered under the name. -/
def manager.Create (m : manager) (_ctx : Context) (name : String)
    (_options : List NetworkOption) : manager × Outcome network :=
  let n : network := { NetworkInfo := { Manager := m.name, Name := name } }
  ({ m with networks := mapSet m.networks name n }, .ok n)

/-- The method `manager.Delete`. -/
def manager.Delete (m : manager) (_ctx : Context) (name : String) : manager × Option GoError :=
  match mapGet m.networks name with
  | none => (m, some (.errorf ""))
  | some _ => ({ m with networks := mapDelete m.networks name }, none)

/-- The method `manager.Network`. -/
def manager.Network (m : manager) (_ctx : Context) (name : String) : Outcome network :=
  match mapGet m.networks name with
  | none => .error (.errorf "")
  | some n => .ok n

/-- The method `manager.Walk`: what `fn` returns is dropped. -/
def manager.Walk {σ : Type} (m : manager) (_ctx : Context)
    (fn : σ → network → σ × Option GoError) (st : σ) : σ × Option GoError :=
  ((mapValues m.networks).foldl (fun acc n => (fn acc n).1) st, none)

/-! ## The local service (`services/networks/local.go`) -/

/-- The struct `local`. -/
structure Local where
  name : String := ""
  m : manager := {}
  deriving DecidableEq, Repr

/-- The method `local.CreateNetwork`. -/
def Local.CreateNetwork (l : Local) (ctx : Context) (name : String)
    (options : List NetworkOption) : Local × Outcome NetworkInfo :=
  match l.m.Create ctx name options with
  | (m', .ok n) => ({ l with m := m' }, .ok (n.Info ctx))
  | (m', .error e) => ({ l with m := m' }, .error e)
  | (m', .fault msg) => ({ l with m := m' }, .fault msg)

/-- The method `local.DeleteNetwork`. -/
def Local.DeleteNetwork (l : Local) (ctx : Context) (name : String) : Local × Option GoError :=
  let res := l.m.Delete ctx name
  ({ l with m := res.1 }, res.2)

/-- The method `local.GetNetwork`. -/
def Local.GetNetwork (l : Local) (ctx : Context) (name : String) : Outcome NetworkInfo :=
  match l.m.Network ctx name with
  | .ok n => .ok (n.Info ctx)
  | .error e => .error e
  | .fault msg => .fault msg

/-- The method `local.ListNetworks`. -/
def Local.ListNetworks (l : Local) (ctx : Context) : Outcome (List NetworkInfo) :=
  match l.m.Walk ctx (fun (res : List NetworkInfo) n => (res ++ [n.Info ctx], none)) [] with
  | (_, some e) => .error e
  | (res, none) => .ok res

/-- The method `local.AttachNetwork`. -/
def Local.AttachNetwork (l : Local) (ctx : Context) (network : String)
    (options : List AttachmentOption) (s : store) : store × Outcome AttachmentInfo :=
  match l.m.Network ctx network with
  | .error e => (s, .error e)
  | .fault msg => (s, .fault msg)
  | .ok n =>
    match n.Attach ctx options s with
    | (s', .error e) => (s', .error e)
    | (s', .fault msg) => (s', .fault msg)
    | (s', .ok a) => (s', .ok (a.Info ctx))

/-- The method `local.DetachNetwork`. -/
def Local.DetachNetwork (l : Local) (ctx : Context) (network : String)
    (attachment : String) (s : store) : store × Outcome Unit :=
  match l.m.Network ctx network with
  | .error e => (s, .error e)
  | .fault msg => (s, .fault msg)
  | .ok n =>
    match n.Attachment ctx attachment with
    | .error e => (s, .error e)
    | .fault msg => (s, .fault msg)
    | .ok a => ((a.Remove ctx s).1, Outcome.ofError (a.Remove ctx s).2)

/-- The method `local.GetAttachment`. -/
def Local.GetAttachment (l : Local) (ctx : Context) (network : String)
    (attachment : String) : Outcome AttachmentInfo :=
  match l.m.Network ctx network with
  | .error e => .error e
  | .fault msg => .fault msg
  | .ok n =>
    match n.Attachment ctx attachment with
    | .error e => .error e
    | .fault msg => .fault msg
    | .ok a => .ok (a.Info ctx)

/-- The method `local.CheckAttachment`. -/
def Local.CheckAttachment (l : Local) (ctx : Context) (network : String)
    (attachment : String) : Outcome Unit :=
  match l.m.Network ctx network with
  | .error e => .error e
  | .fault msg => .fault msg
  | .ok n =>
    match n.Attachment ctx attachment with
    | .error e => .error e
    | .fault msg => .fault msg
    | .ok a => Outcome.ofError (a.Check ctx)

/-- The method `local.ListAttachments`; the filter options are not looked at. -/
def Local.ListAttachments (l : Local) (ctx : Context) (network : String)
    (_options : List AttachmentFilterOption) (s : store) : Outcome (List AttachmentInfo) :=
  match l.m.Network ctx network with
  | .error e => .error e
  | .fault msg => .fault msg
  | .ok n =>
    match n.Walk ctx (fun (res : List AttachmentInfo) a => (res ++ [a.Info ctx], none)) s [] with
    | (_, some e) => .error e
    | (res, none) => .ok res

/-! ## Error kinds over RPC (`errdefs`) -/

/-- The message of an error, `err.Error()`. -/
def GoError.Error : GoError → String
  | .errorf msg => msg
  | .wrapf msg cause => msg ++ cause.Error
  | .errdef .NotFound => "not found"
  | .errdef .AlreadyExists => "already exists"
  | .errdef .InvalidArgument => "invalid argument"
  | .errdef .FailedPrecondition => "failed precondition"
  | .errdef .NotImplemented => "not implemented"
  | .errdef .Unknown => "unknown"
  | .txNotWritable => "tx not writable"
  | .grpcStatus _ msg => msg

/-- Modelled from the spec: the `errdefs` package is not among the sources.
The kind of an error is the `errdefs` sentinel that it is or wraps (what
`errors.Is` finds); an error built by `fmt.Errorf` without `%w` has none. -/
def GoError.kind : GoError → Option ErrKind
  | .errdef k => some k
  | .wrapf _ cause => cause.kind
  | _ => none

/-- Modelled from the spec: `errdefs.IsNotFound`, of the `errdefs` package that
is not among the sources: the error is of the kind `NotFound`. -/
def IsNotFound (e : GoError) : Bool := e.kind = some ErrKind.NotFound

/-- Modelled from the spec: the status code that stands for an error kind, the
kinds mapping one to one to codes. -/
def ErrKind.toCode : ErrKind → Code
  | .NotFound => .NotFound
  | .AlreadyExists => .AlreadyExists
  | .InvalidArgument => .InvalidArgument
  | .FailedPrecondition => .FailedPrecondition
  | .NotImplemented => .Unimplemented
  | .Unknown => .Unknown

/-- Modelled from the spec: the error kind that a status code is translated
back to. -/
def Code.toKind : Code → ErrKind
  | .NotFound => .NotFound
  | .AlreadyExists => .AlreadyExists
  | .InvalidArgument => .InvalidArgument
  | .FailedPrecondition => .FailedPrecondition
  | .Unimplemented => .NotImplemented
  | .Unknown => .Unknown

/-- Modelled from the spec: `errdefs.ToGRPC` on a non-nil error, of the
`errdefs` package that is not among the sources.  An error of a kind becomes
the status of the code of that kind, an error that is not otherwise classified
the status `Unknown`; a status error is passed on. -/
def ToGRPC (e : GoError) : GoError :=
  match e with
  | .grpcStatus c msg => .grpcStatus c msg
  | _ =>
    match e.kind with
    | some k => .grpcStatus k.toCode e.Error
    | none => .grpcStatus .Unknown e.Error

/-- Modelled from the spec: `errdefs.ToGRPCf(err, format, args...)`, the
status of `err` with the formatted text put in front of its message. -/
def ToGRPCf (e : GoError) (format : String) (args : List String) : GoError :=
  ToGRPC (.wrapf (Sprintf format args ++ ": ") e)

/-- Modelled from the spec: `errdefs.FromGRPC` on a non-nil error: the status
code is translated back to the sentinel of its kind, which keeps the message;
an error that is no status is of the kind `Unknown`. -/
def FromGRPC (e : GoError) : GoError :=
  match e with
  | .grpcStatus c msg => .wrapf (msg ++ ": ") (.errdef c.toKind)
  | _ => .wrapf (e.Error ++ ": ") (.errdef .Unknown)

/-! ## `network.Delete` (`network.go`) -/

/-- The method `network.Delete`: the call `n.manager.Delete(ctx, name)` on the
interface value of the field `manager`; on a `nil` interface the call panics.
`m` is the manager that the field refers to when it is set. -/
def network.Delete (n : network) (ctx : Context) (m : Containerd.manager) :
    Containerd.manager × Outcome Unit :=
  match n.manager with
  | none => (m, .fault "invalid memory address or nil pointer dereference")
  | some _ =>
    ((m.Delete ctx n.NetworkInfo.Name).1, Outcome.ofError (m.Delete ctx n.NetworkInfo.Name).2)

/-! ## The RPC service (`services/networks/service.go`)

The request and response messages are generated code that is not among the
sources; their fields are those that `service.go` and `proxy.go` read and
write. -/

/-- The message `CreateNetworkRequest`. -/
structure CreateNetworkRequest where
  NetworkManager : String := ""
  NetworkName : String := ""
  deriving DecidableEq, Repr

/-- The message `DeleteNetworkRequest`. -/
structure DeleteNetworkRequest where
  NetworkManager : String := ""
  NetworkName : String := ""
  deriving DecidableEq, Repr

/-- The message `GetNetworkRequest`. -/
structure GetNetworkRequest where
  NetworkManager : String := ""
  NetworkName : String := ""
  deriving DecidableEq, Repr

/-- The message `ListNetworksRequest`. -/
structure ListNetworksRequest where
  NetworkManager : String := ""
  deriving DecidableEq, Repr

/-- The message `AttachNetworkRequest`. -/
structure AttachNetworkRequest where
  NetworkManager : String := ""
  NetworkName : String := ""
  deriving DecidableEq, Repr

/-- The message `DetachNetworkRequest`. -/
structure DetachNetworkRequest where
  NetworkManager : String := ""
  NetworkName : String := ""
  AttachmentId : String := ""
  deriving DecidableEq, Repr

/-- The message `GetAttachmentRequest`. -/
structure GetAttachmentRequest where
  NetworkManager : String := ""
  NetworkName : String := ""
  AttachmentId : String := ""
  deriving DecidableEq, Repr

/-- The message `CheckAttachmentRequest`. -/
structure CheckAttachmentRequest where
  NetworkManager : String := ""
  NetworkName : String := ""
  AttachmentId : String := ""
  deriving DecidableEq, Repr

/-- The message `ListAttachmentsRequest`. -/
structure ListAttachmentsRequest where
  NetworkManager : String := ""
  NetworkName : String := ""
  deriving DecidableEq, Repr

/-- The message `emptypb.Empty`. -/
structure Empty where
  deriving DecidableEq, Repr

/-- The message `api.NetworkConfig`, with the fields that `local.go` and
`proxy.go` use. -/
structure ApiNetworkConfig where
  Name : String := ""
  Type_ : Int := 0
  Data : List Nat := []
  deriving DecidableEq, Repr

/-- The message `GetNetworkResponse`.  `NetworkConfig` is a message-typed
field, a pointer in generated Go code, `nil` when not set. -/
structure GetNetworkResponse where
  NetworkManager : String := ""
  NetworkConfig : Option ApiNetworkConfig := none
  deriving DecidableEq, Repr

/-- The message `ListNetworksResponse`. -/
structure ListNetworksResponse where
  deriving DecidableEq, Repr

/-- The message `AttachNetworkResponse`. -/
structure AttachNetworkResponse where
  NetworkManager : String := ""
  deriving DecidableEq, Repr

/-- The message `GetAttachmentResponse`. -/
structure GetAttachmentResponse where
  NetworkManager : String := ""
  deriving DecidableEq, Repr

/-- The message `CheckAttachmentResponse`. -/
structure CheckAttachmentResponse where
  NetworkManager : String := ""
  NetworkName : String := ""
  AttachmentId : String := ""
  Ok : Bool := false
  deriving DecidableEq, Repr

/-- The message `ListAttachmentsResponse`. -/
structure ListAttachmentsResponse where
  NetworkManager : String := ""
  deriving DecidableEq, Repr

/-- The struct `service`: the local services by manager name.  The map holds
pointers; a handler that changes a manager writes the new local back. -/
structure service where
  locals : GoMap Local := []
  deriving DecidableEq, Repr

/-- The method `service.getService`. -/
def service.getService (s : service) (name : String) : Outcome Local :=
  if name = "" then
    .error (ToGRPCf (.errdef .InvalidArgument) "network manager name missing" [])
  else
    match mapGet s.locals name with
    | none =>
      .error (ToGRPCf (.errdef .InvalidArgument) "network manager not configured: %s" [name])
    | some m => .ok m

/-- The handler `service.CreateNetwork`. -/
def service.CreateNetwork (s : service) (ctx : Context) (r : CreateNetworkRequest) :
    service × Outcome Empty :=
  match s.getService r.NetworkManager with
  | .error e => (s, .error e)
  | .fault msg => (s, .fault msg)
  | .ok ns =>
    match ns.CreateNetwork ctx r.NetworkName [] with
    | (ns', .error e) => ({ s with locals := mapReplace s.locals r.NetworkManager ns' },
                          .error (ToGRPC e))
    | (ns', .fault msg) => ({ s with locals := mapReplace s.locals r.NetworkManager ns' },
                            .fault msg)
    | (ns', .ok _) => ({ s with locals := mapReplace s.locals r.NetworkManager ns' }, .ok {})

/-- The handler `service.DeleteNetwork`. -/
def service.DeleteNetwork (s : service) (ctx : Context) (r : DeleteNetworkRequest) :
    service × Outcome Empty :=
  match s.getService r.NetworkManager with
  | .error e => (s, .error e)
  | .fault msg => (s, .fault msg)
  | .ok ns =>
    match ns.DeleteNetwork ctx r.NetworkName with
    | (ns', some e) => ({ s with locals := mapReplace s.locals r.NetworkManager ns' },
                        .error (ToGRPC e))
    | (ns', none) => ({ s with locals := mapReplace s.locals r.NetworkManager ns' }, .ok {})

/-- The handler `service.GetNetwork`. -/
def service.GetNetwork (s : service) (ctx : Context) (r : GetNetworkRequest) :
    Outcome GetNetworkResponse :=
  match s.getService r.NetworkManager with
  | .error e => .error e
  | .fault msg => .fault msg
  | .ok ns =>
    match ns.GetNetwork ctx r.NetworkName with
    | .error e => .error (ToGRPC e)
    | .fault msg => .fault msg
    | .ok n => .ok { NetworkManager := n.Manager }

/-- The handler `service.ListNetworks`. -/
def service.ListNetworks (s : service) (ctx : Context) (r : ListNetworksRequest) :
    Outcome ListNetworksResponse :=
  match s.getService r.NetworkManager with
  | .error e => .error e
  | .fault msg => .fault msg
  | .ok ns =>
    match ns.ListNetworks ctx with
    | .error e => .error (ToGRPC e)
    | .fault msg => .fault msg
    | .ok _ => .ok {}

/-- The handler `service.AttachNetwork`: no option is passed on. -/
def service.AttachNetwork (s : service) (ctx : Context) (r : AttachNetworkRequest)
    (st : store) : store × Outcome AttachNetworkResponse :=
  match s.getService r.NetworkManager with
  | .error e => (st, .error e)
  | .fault msg => (st, .fault msg)
  | .ok ns =>
    match ns.AttachNetwork ctx r.NetworkName [] st with
    | (st', .error e) => (st', .error (ToGRPC e))
    | (st', .fault msg) => (st', .fault msg)
    | (st', .ok _) => (st', .ok { NetworkManager := r.NetworkManager })

/-- The handler `service.DetachNetwork`. -/
def service.DetachNetwork (s : service) (ctx : Context) (r : DetachNetworkRequest)
    (st : store) : store × Outcome Empty :=
  match s.getService r.NetworkManager with
  | .error e => (st, .error e)
  | .fault msg => (st, .fault msg)
  | .ok ns =>
    match ns.DetachNetwork ctx r.NetworkName r.AttachmentId st with
    | (st', .error e) => (st', .error (ToGRPC e))
    | (st', .fault msg) => (st', .fault msg)
    | (st', .ok _) => (st', .ok {})

/-- The handler `service.GetAttachment`: the error of `getService` is
overwritten without being looked at, and the method is called on the service
value that came with it, which is `nil` when `getService` failed. -/
def service.GetAttachment (s : service) (ctx : Context) (r : GetAttachmentRequest) :
    Outcome GetAttachmentResponse :=
  match s.getService r.NetworkManager with
  | .error _ => .fault "invalid memory address or nil pointer dereference"
  | .fault msg => .fault msg
  | .ok ns =>
    match ns.GetAttachment ctx r.NetworkName r.AttachmentId with
    | .error e => .error (ToGRPC e)
    | .fault msg => .fault msg
    | .ok _ => .ok { NetworkManager := r.NetworkManager }

/-- The handler `service.CheckAttachment`: the error of the check is not
returned; the field `Ok` is set to `err != nil`. -/
def service.CheckAttachment (s : service) (ctx : Context) (r : CheckAttachmentRequest) :
    Outcome CheckAttachmentResponse :=
  match s.getService r.NetworkManager with
  | .error e => .error e
  | .fault msg => .fault msg
  | .ok ns =>
    match ns.CheckAttachment ctx r.NetworkName r.AttachmentId with
    | .fault msg => .fault msg
    | res =>
      .ok { NetworkManager := r.NetworkManager,
            NetworkName := r.NetworkName,
            AttachmentId := r.AttachmentId,
            Ok := res.isError }

/-- The handler `service.ListAttachments`: as in `GetAttachment`, the error of
`getService` is not looked at. -/
def service.ListAttachments (s : service) (ctx : Context) (r : ListAttachmentsRequest)
    (st : store) : Outcome ListAttachmentsResponse :=
  match s.getService r.NetworkManager with
  | .error _ => .fault "invalid memory address or nil pointer dereference"
  | .fault msg => .fault msg
  | .ok ns =>
    match ns.ListAttachments ctx r.NetworkName [] st with
    | .error e => .error (ToGRPC e)
    | .fault msg => .fault msg
    | .ok _ => .ok { NetworkManager := r.NetworkManager }

/-! ## The proxy (`networks/proxy.go`)

The client of the proxy is the RPC service itself: a call of the client is a
call of the handler, in the same context. -/

/-- The struct `proxy`; its `client` is the service passed to each method. -/
structure proxy where
  manager : String := ""
  deriving DecidableEq, Repr

/-- The method `proxy.CreateNetwork`: the options are not sent. -/
def proxy.CreateNetwork (p : proxy) (ctx : Context) (name : String)
    (_options : List NetworkOption) (client : service) : service × Outcome NetworkInfo :=
  match client.CreateNetwork ctx { NetworkManager := p.manager, NetworkName := name } with
  | (c, .error e) => (c, .error (FromGRPC e))
  | (c, .fault msg) => (c, .fault msg)
  | (c, .ok _) => (c, .ok { Manager := p.manager, Name := name })

/-- The method `proxy.DeleteNetwork`. -/
def proxy.DeleteNetwork (p : proxy) (ctx : Context) (name : String) (client : service) :
    service × Outcome Unit :=
  match client.DeleteNetwork ctx { NetworkManager := p.manager, NetworkName := name } with
  | (c, .error e) => (c, .error (FromGRPC e))
  | (c, .fault msg) => (c, .fault msg)
  | (c, .ok _) => (c, .ok ())

/-- The method `proxy.GetNetwork`: the name is read through the field
`NetworkConfig` of the response, a `nil` pointer when the field is not set. -/
def proxy.GetNetwork (p : proxy) (ctx : Context) (name : String) (client : service) :
    Outcome NetworkInfo :=
  match client.GetNetwork ctx { NetworkManager := p.manager, NetworkName := name } with
  | .error e => .error (FromGRPC e)
  | .fault msg => .fault msg
  | .ok resp =>
    match resp.NetworkConfig with
    | none => .fault "invalid memory address or nil pointer dereference"
    | some cfg => .ok { Manager := resp.NetworkManager, Name := cfg.Name }

/-- The method `proxy.ListNetworks`: on success it returns `nil, nil`. -/
def proxy.ListNetworks (p : proxy) (ctx : Context) (client : service) :
    Outcome (List NetworkInfo) :=
  match client.ListNetworks ctx { NetworkManager := p.manager } with
  | .error e => .error (FromGRPC e)
  | .fault msg => .fault msg
  | .ok _ => .ok []

/-- The method `proxy.AttachNetwork`: the options are not sent; on success it
returns the zero `AttachmentInfo`. -/
def proxy.AttachNetwork (p : proxy) (ctx : Context) (network : String)
    (_options : List AttachmentOption) (client : service) (st : store) :
    store × Outcome AttachmentInfo :=
  match client.AttachNetwork ctx { NetworkManager := p.manager, NetworkName := network } st with
  | (st', .error e) => (st', .error (FromGRPC e))
  | (st', .fault msg) => (st', .fault msg)
  | (st', .ok _) => (st', .ok {})

/-- The method `proxy.DetachNetwork`. -/
def proxy.DetachNetwork (p : proxy) (ctx : Context) (network attachment : String)
    (client : service) (st : store) : store × Outcome Unit :=
  match client.DetachNetwork ctx
      { NetworkManager := p.manager, NetworkName := network, AttachmentId := attachment } st with
  | (st', .error e) => (st', .error (FromGRPC e))
  | (st', .fault msg) => (st', .fault msg)
  | (st', .ok _) => (st', .ok ())

/-- The method `proxy.GetAttachment`. -/
def proxy.GetAttachment (p : proxy) (ctx : Context) (network attachment : String)
    (client : service) : Outcome AttachmentInfo :=
  match client.GetAttachment ctx
      { NetworkManager := p.manager, NetworkName := network, AttachmentId := attachment } with
  | .error e => .error (FromGRPC e)
  | .fault msg => .fault msg
  | .ok _ => .ok { Manager := p.manager, Network := network }

/-- The method `proxy.CheckAttachment`: the response is dropped, only the
error of the call is returned. -/
def proxy.CheckAttachment (p : proxy) (ctx : Context) (network attachment : String)
    (client : service) : Outcome Unit :=
  match client.CheckAttachment ctx
      { NetworkManager := p.manager, NetworkName := network, AttachmentId := attachment } with
  | .error e => .error (FromGRPC e)
  | .fault msg => .fault msg
  | .ok _ => .ok ()

/-- The method `proxy.ListAttachments`: the filter options are not sent; on
success it returns `nil, nil`. -/
def proxy.ListAttachments (p : proxy) (ctx : Context) (network : String)
    (_options : List AttachmentFilterOption) (client : service) (st : store) :
    Outcome (List AttachmentInfo) :=
  match client.ListAttachments ctx { NetworkManager := p.manager, NetworkName := network } st with
  | .error e => .error (FromGRPC e)
  | .fault msg => .fault msg
  | .ok _ => .ok []

/-- A call of the `Service` interface: one of its nine methods with its
arguments. -/
inductive ServiceCall where
  | CreateNetwork (name : String) (options : List NetworkOption)
  | DeleteNetwork (name : String)
  | GetNetwork (name : String)
  | ListNetworks
  | AttachNetwork (network : String) (options : List AttachmentOption)
  | DetachNetwork (network attachment : String)
  | GetAttachment (network attachment : String)
  | CheckAttachment (network attachment : String)
  | ListAttachments (network : String) (options : List AttachmentFilterOption)

/-- Does the local adapter return an error on the call. -/
def Local.returnsError (l : Local) (ctx : Context) (st : store) : ServiceCall → Bool
  | .CreateNetwork name options => (l.CreateNetwork ctx name options).2.isError
  | .DeleteNetwork name => (l.DeleteNetwork ctx name).2.isSome
  | .GetNetwork name => (l.GetNetwork ctx name).isError
  | .ListNetworks => (l.ListNetworks ctx).isError
  | .AttachNetwork network options => (l.AttachNetwork ctx network options st).2.isError
  | .DetachNetwork network attachment => (l.DetachNetwork ctx network attachment st).2.isError
  | .GetAttachment network attachment => (l.GetAttachment ctx network attachment).isError
  | .CheckAttachment network attachment => (l.CheckAttachment ctx network attachment).isError
  | .ListAttachments network options => (l.ListAttachments ctx network options st).isError

/-- Does the proxy adapter, its client wired to the service, return an error
on the call. -/
def proxy.returnsError (p : proxy) (client : service) (ctx : Context) (st : store) :
    ServiceCall → Bool
  | .CreateNetwork name options => (p.CreateNetwork ctx name options client).2.isError
  | .DeleteNetwork name => (p.DeleteNetwork ctx name client).2.isError
  | .GetNetwork name => (p.GetNetwork ctx name client).isError
  | .ListNetworks => (p.ListNetworks ctx client).isError
  | .AttachNetwork network options => (p.AttachNetwork ctx network options client st).2.isError
  | .DetachNetwork network attachment =>
    (p.DetachNetwork ctx network attachment client st).2.isError
  | .GetAttachment network attachment => (p.GetAttachment ctx network attachment client).isError
  | .CheckAttachment network attachment =>
    (p.CheckAttachment ctx network attachment client).isError
  | .ListAttachments network options =>
    (p.ListAttachments ctx network options client st).isError

/-- The calls on which the two adapters are compared: every call but
`CheckAttachment` and `GetNetwork`, and `AttachNetwork` only with options that
apply without error (the proxy sends no option). -/
def ServiceCall.comparable : ServiceCall → Bool
  | .CheckAttachment _ _ => false
  | .GetNetwork _ => false
  | .AttachNetwork _ options => (applyOptions options {}).isOk
  | _ => true

/-- Does the local adapter panic on the call. -/
def Local.panics (l : Local) (ctx : Context) (st : store) : ServiceCall → Bool
  | .CreateNetwork name options => (l.CreateNetwork ctx name options).2.isFault
  | .DeleteNetwork _ => false
  | .GetNetwork name => (l.GetNetwork ctx name).isFault
  | .ListNetworks => (l.ListNetworks ctx).isFault
  | .AttachNetwork network options => (l.AttachNetwork ctx network options st).2.isFault
  | .DetachNetwork network attachment => (l.DetachNetwork ctx network attachment st).2.isFault
  | .GetAttachment network attachment => (l.GetAttachment ctx network attachment).isFault
  | .CheckAttachment network attachment => (l.CheckAttachment ctx network attachment).isFault
  | .ListAttachments network options => (l.ListAttachments ctx network options st).isFault

/-- Does the proxy adapter, its client wired to the service, panic on the
call. -/
def proxy.panics (p : proxy) (client : service) (ctx : Context) (st : store) :
    ServiceCall → Bool
  | .CreateNetwork name options => (p.CreateNetwork ctx name options client).2.isFault
  | .DeleteNetwork name => (p.DeleteNetwork ctx name client).2.isFault
  | .GetNetwork name => (p.GetNetwork ctx name client).isFault
  | .ListNetworks => (p.ListNetworks ctx client).isFault
  | .AttachNetwork network options => (p.AttachNetwork ctx network options client st).2.isFault
  | .DetachNetwork network attachment =>
    (p.DetachNetwork ctx network attachment client st).2.isFault
  | .GetAttachment network attachment => (p.GetAttachment ctx network attachment client).isFault
  | .CheckAttachment network attachment =>
    (p.CheckAttachment ctx network attachment client).isFault
  | .ListAttachments network options =>
    (p.ListAttachments ctx network options client st).isFault

/-! ## The resource collector of the attachments (`networks/gc.go`) -/

/-- The struct `gc.Node`, with the fields that `gcnode` sets; the resource
type is a byte. -/
structure Node where
  Type_ : Nat := 0
  Namespace : String := ""
  Key : String := ""
  deriving DecidableEq, Repr

/-- The constant `ResourceNetwork`. -/
def ResourceNetwork : Nat := 0x11

/-- The function `gcnode`. -/
def gcnode (t : Nat) (ns key : String) : Node :=
  { Type_ := t, Namespace := ns, Key := key }

/-- The struct `ResourceCollector` of the package `networks`. -/
structure ResourceCollector where
  managers : GoMap manager := []
  deriving DecidableEq, Repr

/-- The struct `gccontext`.  `leases` is a map made by `make`, `all` and
`removes` are slices. -/
structure gccontext where
  managers : GoMap manager := []
  all : List String := []
  leases : GoMap (List String) := []
  removes : List String := []
  deriving DecidableEq, Repr

/-- The function `NewResourceCollector`: the map of managers is copied. -/
def NewResourceCollector (managers : GoMap manager) : Outcome ResourceCollector :=
  .ok { managers := managers }

/-- The method `ResourceCollector.StartCollection`: a new context with the
managers of the collector and an empty lease map.  The walk over the networks
of each manager has an empty callback and its error is dropped. -/
def ResourceCollector.StartCollection (rc : ResourceCollector) (_ctx : Context) :
    Outcome gccontext :=
  .ok { managers := rc.managers, leases := [] }

/-- The method `gccontext.All`. -/
def gccontext.All {σ : Type} (c : gccontext) (fn : σ → Node → σ) (st : σ) : σ :=
  c.all.foldl (fun acc id => fn acc (gcnode ResourceNetwork "" id)) st

/-- The method `gccontext.Active`: nothing is done. -/
def gccontext.Active {σ : Type} (_c : gccontext) (_ns : String) (_fn : σ → Node → σ)
    (st : σ) : σ :=
  st

/-- The method `gccontext.Leased`: for each ID recorded under the lease a node
is built by `gcnode` and dropped; `fn` is not called. -/
def gccontext.Leased {σ : Type} (c : gccontext) (_ns lease : String) (_fn : σ → Node → σ)
    (st : σ) : σ :=
  match mapGet c.leases lease with
  | none => st
  | some ls => ls.foldl (fun acc l => (fun (_ : Node) => acc) (gcnode ResourceNetwork "" l)) st

/-- The method `gccontext.Remove`. -/
def gccontext.Remove (c : gccontext) (n : Node) : gccontext :=
  if n.Type_ = ResourceNetwork then { c with removes := c.removes ++ [n.Key] } else c

/-- The method `gccontext.Cancel`. -/
def gccontext.Cancel (c : gccontext) : gccontext × Option GoError :=
  ({ c with removes := [] }, none)

/-- The body of the loop of `gccontext.Finish` for one removed key: when the
manager `default` is configured, its `Delete` is called with the key as the
name of a network, and the error is dropped. -/
def finishStep (managers : GoMap manager) (id : String) : GoMap manager :=
  match mapGet managers "default" with
  | some m => mapReplace managers "default" (m.Delete {} id).1
  | none => managers

/-- The method `gccontext.Finish`.  The managers hold the store, but
`manager.Delete`, the only call made, does not use it: the store `st` is
returned as it was given. -/
def gccontext.Finish (c : gccontext) (st : store) : (gccontext × store) × Option GoError :=
  (({ c with managers := c.removes.foldl finishStep c.managers, removes := [] }, st), none)

/-- A step that the global collector makes on a collection context after
`StartCollection`: `Remove` of a node, `Cancel` or `Finish`.  The methods
`All`, `Active` and `Leased` do not change the context. -/
inductive GcOp where
  | Remove (n : Node)
  | Cancel
  | Finish
  deriving DecidableEq, Repr

/-- One step of the global collector on a context of the package `networks`
and the store. -/
def gccontext.step (cs : gccontext × store) : GcOp → gccontext × store
  | .Remove n => (cs.1.Remove n, cs.2)
  | .Cancel => (cs.1.Cancel.1, cs.2)
  | .Finish => (cs.1.Finish cs.2).1

/-- The context and the store after a list of steps of the global collector. -/
def gccontext.run (c : gccontext) (st : store) (ops : List GcOp) : gccontext × store :=
  ops.foldl gccontext.step (c, st)

/-! ## fmt.Sscanf -/

/-- The space characters of the scanner. -/
def isSpace (c : Char) : Bool :=
  c = ' ' || c = '\t' || c = '\n' || c = '\r'

/-- The part of `fmt.Sscanf` used by the package `network`.  The verb `%s`
skips leading space and reads the characters up to the next space or the end
of the input; it fails at the end of the input.  Any other character of the
format must be the next character of the input.  The result is the list of
the strings read. -/
def sscanfAux : List Char → List Char → List String → Outcome (List String)
  | '%' :: 's' :: fmt, input, acc =>
    match input.dropWhile isSpace with
    | [] => .error (.errorf "unexpected EOF")
    | c :: rest =>
      sscanfAux fmt ((c :: rest).dropWhile (fun x => !isSpace x))
        (acc ++ [String.mk ((c :: rest).takeWhile (fun x => !isSpace x))])
  | f :: fmt, input, acc =>
    match input with
    | [] => .error (.errorf "unexpected EOF")
    | c :: rest =>
      if f = c then sscanfAux fmt rest acc
      else .error (.errorf "input does not match format")
  | [], _, acc => .ok acc

/-- The call `fmt.Sscanf(str, format, &a, &b, ...)` with string operands. -/
def Sscanf (str format : String) : Outcome (List String) :=
  sscanfAux format.data str.data []

/-! ## The resource collector of the environments (`network/gc.go`)

The package `network` keeps its resources in bolt buckets.  The bucket tree is
the list of the paths of its entries: a path is the list of the names from the
root down to a bucket or a key. -/

/-- The entries of a bolt database, each by its path from the root. -/
abbrev Buckets := List (List String)

/-- The names of the entries directly under the bucket `path`, in the order of
the iteration `ForEach`. -/
def bucketChildren (b : Buckets) (path : List String) : List String :=
  b.filterMap (fun q => if q ≠ [] ∧ q.dropLast = path then q.getLast? else none)

/-- The call `bkt.DeleteBucket(name)` on the bucket `path`: it fails when there
is no such bucket, else the bucket goes with all that it holds. -/
def DeleteBucket (b : Buckets) (path : List String) (name : String) :
    Buckets × Option GoError :=
  if path ++ [name] ∈ b then
    (b.filter (fun q => !(path ++ [name]).isPrefixOf q), none)
  else (b, some (.errorf "bucket not found"))

/-- The function `getEnvBucket` of `network/store.go`: the bucket
namespace / `envs` / id, or `nil` when one of the three is missing. -/
def getEnvBucket (b : Buckets) (ns id : String) : Option (List String) :=
  if [ns] ∈ b then
    if [ns, "envs"] ∈ b then
      if [ns, "envs", id] ∈ b then some [ns, "envs", id] else none
    else none
  else none

/-- The interface `Env`, as far as the collector uses it: `Remove`.
`failing` lists the IDs that the environment fails to remove (the `env` of
`env.go` fails on none) and `removed` records the IDs that `Remove` was called
with. -/
structure Env where
  failing : List String := []
  removed : List String := []
  deriving DecidableEq, Repr

/-- The method `Env.Remove`. -/
def Env.Remove (e : Env) (_ctx : Context) (id : String) : Env × Option GoError :=
  ({ e with removed := e.removed ++ [id] },
   if id ∈ e.failing then some (.errorf "remove failed") else none)

/-- The struct `ResourceCollector` of the package `network`: the database (its
handle and its buckets), the nodes to remove and the environments. -/
structure EnvResourceCollector where
  db : DB := {}
  buckets : Buckets := []
  gcnodes : List Node := []
  envs : GoMap Env := []
  deriving DecidableEq, Repr

/-- The method `ResourceCollector.StartCollection` of the package `network`:
the collector itself is the collection context. -/
def EnvResourceCollector.StartCollection (rc : EnvResourceCollector) (_ctx : Context) :
    Outcome EnvResourceCollector :=
  .ok rc

/-- The method `ResourceCollector.Leased` of the package `network`: `fn` is
called on a node for every key of the bucket namespace / `leases` / lease. -/
def EnvResourceCollector.Leased {σ : Type} (rc : EnvResourceCollector) (ns lease : String)
    (fn : σ → Node → σ) (st : σ) : σ :=
  (rc.db.View
    (fun _ st0 =>
      if [ns] ∉ rc.buckets then (st0, none)
      else if [ns, "leases"] ∉ rc.buckets then (st0, none)
      else if [ns, "leases", lease] ∉ rc.buckets then (st0, none)
      else
        ((bucketChildren rc.buckets [ns, "leases", lease]).foldl
            (fun acc k => fn acc (gcnode ResourceNetwork ns k)) st0,
         none))
    st).1

/-- The method `ResourceCollector.Remove` of the package `network`. -/
def EnvResourceCollector.Remove (rc : EnvResourceCollector) (n : Node) : EnvResourceCollector :=
  if n.Type_ = ResourceNetwork then { rc with gcnodes := rc.gcnodes ++ [n] } else rc

/-- The method `ResourceCollector.Cancel` of the package `network`. -/
def EnvResourceCollector.Cancel (rc : EnvResourceCollector) :
    EnvResourceCollector × Option GoError :=
  ({ rc with gcnodes := [] }, none)

/-- The part of the loop body of `ResourceCollector.Finish` of the package
`network` that follows the reading of the key, with the environment ID `eid`
and the resource ID `rid` in hand: an unknown environment, a failing `Remove`
and a missing bucket each end the turn for the node; the error of
`DeleteBucket` is dropped. -/
def envRemoveResource (st : GoMap Env × Buckets) (ns eid rid : String) : GoMap Env × Buckets :=
  match mapGet st.1 eid with
  | none => st
  | some env =>
    match env.Remove {} rid with
    | (env', some _) => (mapReplace st.1 eid env', st.2)
    | (env', none) =>
      match getEnvBucket st.2 ns eid with
      | none => (mapReplace st.1 eid env', st.2)
      | some bkt => (mapReplace st.1 eid env', (DeleteBucket st.2 bkt rid).1)

/-- The loop body of `ResourceCollector.Finish` of the package `network` with
the reading of the key left open: `parse` stands for the call of `fmt.Sscanf`
on the key, whatever it returns. -/
def envFinishStepWith (parse : String → Outcome (List String)) (st : GoMap Env × Buckets)
    (n : Node) : GoMap Env × Buckets :=
  if n.Type_ ≠ ResourceNetwork then st
  else
    match parse n.Key with
    | .error _ => st
    | .fault _ => st
    | .ok vals => envRemoveResource st n.Namespace (vals.getD 0 "") (vals.getD 1 "")

/-- The body of the loop of `ResourceCollector.Finish` of the package
`network` for one node, on the environments and the buckets: the key is read
with `fmt.Sscanf(node.Key, "%s/%s", &eid, &rid)`. -/
def envFinishStep (st : GoMap Env × Buckets) (n : Node) : GoMap Env × Buckets :=
  envFinishStepWith (fun key => Sscanf key "%s/%s") st n

/-- The method `ResourceCollector.Finish` of the package `network`: the loop
runs in one `db.Update`; the closure returns `nil`.  When the commit fails the
buckets are as before, while the calls of `Remove` have been made. -/
def EnvResourceCollector.Finish (rc : EnvResourceCollector) :
    EnvResourceCollector × Option GoError :=
  match rc.db.Update (fun _ st => (rc.gcnodes.foldl envFinishStep st, none))
      (rc.envs, rc.buckets) with
  | ((envs, _), some e) => ({ rc with envs := envs }, some e)
  | ((envs, buckets), none) => ({ rc with envs := envs, buckets := buckets }, none)

/-! ## Sample states -/

/-- An attachment option, as a caller of `Attach` writes one, that sets the
container and the interface name. -/
def withContainerIF (c i : String) : AttachmentOption :=
  fun a => .ok { a with Container := c, IFName := i }

/-- A context in the namespace `ns1`, without ambient transaction. -/
def ctxNs1 : Context := { ns := some "ns1" }

/-- The network `web` as `manager.Create` of the manager `default` builds it. -/
def netWeb : network := { NetworkInfo := { Manager := "default", Name := "web" } }

/-- The network `db` as `manager.Create` of the manager `default` builds it. -/
def netDb : network := { NetworkInfo := { Manager := "default", Name := "db" } }

/-- The local service of the manager `default` with the networks `web` and
`db` registered. -/
def localDefault : Local :=
  { name := "default", m := { name := "default", networks := [("web", netWeb), ("db", netDb)] } }

/-- The record that `Attach` on `web` persists for container `c1`, interface
`eth0`, namespace `ns1`. -/
def recWebC1 : AttachmentRecord :=
  { ID := "default/web/ns1/c1/eth0",
    Args := some { Container := "c1", IFName := "eth0" },
    Status := 0 }

/-- The record that `Attach` on `db` persists for container `c1`, interface
`eth0`, namespace `ns1`. -/
def recDbC1 : AttachmentRecord :=
  { ID := "default/db/ns1/c1/eth0",
    Args := some { Container := "c1", IFName := "eth0" },
    Status := 0 }

/-- A callback paired with the log of the arguments it was called on: the
instrumented callback adds its argument to the log and otherwise behaves as
`fn`. -/
def logged {σ α : Type} (fn : σ → α → σ × Option GoError) :
    σ × List α → α → (σ × List α) × Option GoError :=
  fun st x => (((fn st.1 x).1, st.2 ++ [x]), (fn st.1 x).2)

/-- The RPC service with the one manager `default` configured. -/
def svcDefault : service := { locals := [("default", localDefault)] }

/-- The store that holds one attachment of `web` and one of `db`. -/
def storeTwo : store :=
  { t := [("default/web/ns1/c1/eth0", recWebC1), ("default/db/ns1/c1/eth0", recDbC1)] }

/-- A callback of the collector that keeps the list of the nodes it is
called with. -/
def collectNodes : List Node → Node → List Node := fun l n => l ++ [n]

/-- A collector of the package `network` with the environment `env1`
configured and the resource `res1` stored under it in the namespace `ns1`. -/
def envCollector : EnvResourceCollector :=
  { buckets := [["v0"], ["ns1"], ["ns1", "envs"], ["ns1", "envs", "env1"],
                ["ns1", "envs", "env1", "res1"]],
    envs := [("env1", {})] }

/-! ## Attachment options (`networks/options.go`) -/

/-- The function `WithCapabilityArg`: the option assigns `value` to the key
`name` of `args.CapabilityArgs`; the assignment to an entry of a `nil` map
panics. -/
def WithCapabilityArg (name : String) (value : String) : AttachmentOption :=
  fun args =>
    match args.CapabilityArgs with
    | none => .fault "assignment to entry in nil map"
    | some m => .ok { args with CapabilityArgs := some (mapSet m name value) }

/-- The function `WithPluginArg`: the option assigns `value` to the key `name`
of `args.PluginArgs`; the assignment to an entry of a `nil` map panics. -/
def WithPluginArg (name : String) (value : String) : AttachmentOption :=
  fun args =>
    match args.PluginArgs with
    | none => .fault "assignment to entry in nil map"
    | some m => .ok { args with PluginArgs := some (mapSet m name value) }

/-! ## Network configurations over RPC (`services/networks/local.go`) -/

/-- The constants of the enum `api.NetworkConfigType`, declared in generated
code that is not among the sources; they are taken as given. -/
structure ApiConfigTypes where
  NC_UNKNOWN : Int
  NC_CONF : Int
  NC_CONFLIST : Int
  deriving DecidableEq, Repr

/-- The function `toNetworkConfig`. -/
def toNetworkConfig (k : ApiConfigTypes) (p : ApiNetworkConfig) : NetworkConfig :=
  if p.Type_ = k.NC_CONF then { Type_ := NetworkConfigConf, Bytes := p.Data }
  else if p.Type_ = k.NC_CONFLIST then { Type_ := NetworkConfigConfList, Bytes := p.Data }
  else { Type_ := NetworkConfigInvalid, Bytes := p.Data }

/-- The function `fromNetworkConfig`. -/
def fromNetworkConfig (k : ApiConfigTypes) (c : NetworkConfig) : ApiNetworkConfig :=
  if c.Type_ = NetworkConfigConf then { Type_ := k.NC_CONF, Data := c.Bytes }
  else if c.Type_ = NetworkConfigConfList then { Type_ := k.NC_CONFLIST, Data := c.Bytes }
  else { Type_ := k.NC_UNKNOWN, Data := c.Bytes }

/-! ## The client side (`networks.go` of the package `containerd`) -/

/-- Modelled from the spec: the method `Client.NetworkService` is not among the
sources.  The client holds, by manager name, the service it hands out, a proxy
that marshals each call to the remote service; for any other name it returns
`nil`. -/
structure Client where
  networkServices : GoMap proxy := []
  deriving DecidableEq, Repr

/-- Modelled from the spec: the method `Client.NetworkService`, see `Client`. -/
def Client.NetworkService (c : Client) (name : String) : Option proxy :=
  mapGet c.networkServices name

/-- The struct `manager` of the package `containerd`, the client-side
manager. -/
structure clientManager where
  name : String := ""
  client : Client := {}
  deriving DecidableEq, Repr

/-- The struct `network` of the package `containerd`, the client-side
network. -/
structure clientNetwork where
  NetworkInfo : NetworkInfo := {}
  client : Client := {}
  deriving DecidableEq, Repr

/-- The function `NewNetworkManager`. -/
def NewNetworkManager (name : String) (client : Client) : clientManager :=
  { name := name, client := client }

/-- The method `network.Delete` of the client side: `DeleteNetwork` is called
with the name of the network.  `remote` is the RPC service that the proxy
calls. -/
def clientNetwork.Delete (n : clientNetwork) (ctx : Context) (remote : service) :
    service × Outcome Unit :=
  match n.client.NetworkService n.NetworkInfo.Manager with
  | none => (remote, .error (.errorf ""))
  | some s => s.DeleteNetwork ctx n.NetworkInfo.Name remote

/-- The method `manager.Delete` of the client side: `DeleteNetwork` is called
with `m.name`, the name of the manager; the parameter `name` is not used. -/
def clientManager.Delete (m : clientManager) (ctx : Context) (_name : String)
    (remote : service) : service × Outcome Unit :=
  match m.client.NetworkService m.name with
  | none => (remote, .error (.errorf ""))
  | some s =>
    match s.DeleteNetwork ctx m.name remote with
    | (remote', .error e) => (remote', .error (FromGRPC e))
    | (remote', .fault msg) => (remote', .fault msg)
    | (remote', .ok _) => (remote', .ok ())

/-! ## ID maps of user namespaces (`pkg/sys/userns/idmap.go`)

The IDs are `uint32` values: natural numbers below 2^32, with the sum and the
difference taken modulo 2^32. -/

/-- The constant `math.MaxUint32`. -/
def MaxUint32 : Nat := 4294967295

/-- The sum of two `uint32` values. -/
def add32 (a b : Nat) : Nat := (a + b) % 4294967296

/-- The difference of two `uint32` values. -/
def sub32 (a b : Nat) : Nat := (a + 4294967296 - b) % 4294967296

/-- The struct `specs.LinuxIDMapping`. -/
structure LinuxIDMapping where
  ContainerID : Nat := 0
  HostID : Nat := 0
  Size : Nat := 0
  deriving DecidableEq, Repr

/-- The struct `User`. -/
structure User where
  Uid : Nat := 0
  Gid : Nat := 0
  deriving DecidableEq, Repr

/-- The variable `invalidUser`. -/
def invalidUser : User := { Uid := MaxUint32, Gid := MaxUint32 }

/-- The struct `IDMap`; a slice that is `nil` is `none`. -/
structure IDMap where
  UidMap : Option (List LinuxIDMapping) := none
  GidMap : Option (List LinuxIDMapping) := none
  deriving DecidableEq, Repr

/-- The loop of `toHost` over the entries, with the error returned after it. -/
def toHostLoop (contID : Nat) : List LinuxIDMapping → Nat × Option GoError
  | [] =>
    (MaxUint32,
     some (.errorf ("container ID " ++ toString contID ++ " cannot be mapped to a host ID")))
  | m :: rest =>
    if contID ≥ m.ContainerID ∧ contID ≤ sub32 (add32 m.ContainerID m.Size) 1 then
      (add32 m.HostID (sub32 contID m.ContainerID), none)
    else toHostLoop contID rest

/-- The function `toHost`. -/
def toHost (contID : Nat) (idMap : Option (List LinuxIDMapping)) : Nat × Option GoError :=
  match idMap with
  | none => (contID, none)
  | some l => toHostLoop contID l

/-- The loop of `toContainer` over the entries, with the error returned after
it. -/
def toContainerLoop (hostID : Nat) : List LinuxIDMapping → Nat × Option GoError
  | [] =>
    (MaxUint32,
     some (.errorf ("host ID " ++ toString hostID ++ " cannot be mapped to a container ID")))
  | m :: rest =>
    if hostID ≥ m.HostID ∧ hostID ≤ sub32 (add32 m.HostID m.Size) 1 then
      (add32 m.ContainerID (sub32 hostID m.HostID), none)
    else toContainerLoop hostID rest

/-- The function `toContainer`. -/
def toContainer (hostID : Nat) (idMap : Option (List LinuxIDMapping)) : Nat × Option GoError :=
  match idMap with
  | none => (hostID, none)
  | some l => toContainerLoop hostID l

/-- The method `IDMap.RootPair`. -/
def IDMap.RootPair (i : IDMap) : User × Option GoError :=
  match toHost 0 i.UidMap with
  | (_, some err) => (invalidUser, some err)
  | (uid, none) =>
    match toHost 0 i.GidMap with
    | (_, some err) => (invalidUser, some err)
    | (gid, none) => ({ Uid := uid, Gid := gid }, none)

/-- The method `IDMap.ToHost`. -/
def IDMap.ToHost (i : IDMap) (pair : User) : User × Option GoError :=
  match toHost pair.Uid i.UidMap with
  | (_, some err) => (invalidUser, some err)
  | (uid, none) =>
    match toHost pair.Gid i.GidMap with
    | (_, some err) => (invalidUser, some err)
    | (gid, none) => ({ Uid := uid, Gid := gid }, none)

/-- The method `IDMap.ToContainer`. -/
def IDMap.ToContainer (i : IDMap) (pair : User) : User × Option GoError :=
  match toContainer pair.Uid i.UidMap with
  | (_, some err) => (invalidUser, some err)
  | (uid, none) =>
    match toContainer pair.Gid i.GidMap with
    | (_, some err) => (invalidUser, some err)
    | (gid, none) => ({ Uid := uid, Gid := gid }, none)

/-- The method `IDMap.Empty`; the length of a `nil` slice is 0. -/
def IDMap.Empty (i : IDMap) : Bool :=
  (i.UidMap.getD []).length = 0 && (i.GidMap.getD []).length = 0

/-- The ID map of `TestToHost` and `TestToContainer`. -/
def testIDMap : IDMap :=
  { UidMap := some [{ ContainerID := 0, HostID := 1, Size := 2 },
                    { ContainerID := 2, HostID := 4, Size := 1000 }],
    GidMap := some [{ ContainerID := 0, HostID := 2, Size := 4 },
                    { ContainerID := 4, HostID := 8, Size := 1000 }] }

/-- The condition of the round trip on one map: the map is `nil`, or each of
its entries has a size of at least 1 and ends at 2^32 at most on both sides,
and the host ranges of two entries do not meet. -/
def roundTripMap : Option (List LinuxIDMapping) → Prop
  | none => True
  | some l =>
    (∀ m ∈ l, 1 ≤ m.Size ∧ m.ContainerID + m.Size ≤ 4294967296
        ∧ m.HostID + m.Size ≤ 4294967296)
    ∧ l.Pairwise (fun a b => a.HostID + a.Size ≤ b.HostID ∨ b.HostID + b.Size ≤ a.HostID)

/-- The client of the manager `default`, its proxy wired to the RPC service. -/
def clientDefault : Client := { networkServices := [("default", { manager := "default" })] }

/-! ## Lemmas on maps and formatting -/

theorem mapGet_mapDelete_self {α : Type} (m : GoMap α) (k : String) :
    mapGet (mapDelete m k) k = none := by
  induction m with
  | nil => rfl
  | cons p rest ih =>
    obtain ⟨a, b⟩ := p
    by_cases h : a = k
    · simpa [mapDelete, List.filter_cons, h] using ih
    · simpa [mapDelete, List.filter_cons, h, mapGet] using ih

theorem mapGet_mapDelete_ne {α : Type} (m : GoMap α) (k k' : String) (hne : k' ≠ k) :
    mapGet (mapDelete m k) k' = mapGet m k' := by
  induction m with
  | nil => rfl
  | cons p rest ih =>
    obtain ⟨a, b⟩ := p
    by_cases h : a = k
    · have h' : ¬ k = k' := fun e => hne e.symm
      subst h
      simpa [mapDelete, List.filter_cons, mapGet, h'] using ih
    · by_cases h2 : a = k'
      · subst h2
        simp [mapDelete, List.filter_cons, h, mapGet]
      · simpa [mapDelete, List.filter_cons, h, mapGet, h2] using ih

theorem mapGet_append {α : Type} (m m' : GoMap α) (k : String) :
    mapGet (m ++ m') k = (mapGet m k).orElse (fun _ => mapGet m' k) := by
  induction m with
  | nil => simp [mapGet]
  | cons p rest ih =>
    by_cases h : p.1 = k
    · simp [mapGet, h]
    · simpa [mapGet, h] using ih

theorem mapGet_mapSet_self {α : Type} (m : GoMap α) (k : String) (v : α) :
    mapGet (mapSet m k v) k = some v := by
  simp [mapSet, mapGet_append, mapGet_mapDelete_self, mapGet]

theorem mapGet_mapSet_ne {α : Type} (m : GoMap α) (k k' : String) (v : α) (hne : k' ≠ k) :
    mapGet (mapSet m k v) k' = mapGet m k' := by
  have h : ¬ k = k' := fun e => hne e.symm
  simp [mapSet, mapGet_append, mapGet_mapDelete_ne m k k' hne, mapGet, h]

theorem generateAttachmentID_eq (m n ns c i : String) :
    generateAttachmentID m n ns c i = m ++ "/" ++ n ++ "/" ++ ns ++ "/" ++ c ++ "/" ++ i := by
  apply String.ext
  simp [generateAttachmentID, Sprintf, sprintfAux]

theorem store_create_nil {s s1 : store} {ctx : Context} {mgr net : String}
    {r : AttachmentRecord} (h : s.Create ctx mgr net r = (s1, none)) :
    s1 = { s with t := mapSet s.t r.ID r } ∧ (ctx.tx ≠ none ∨ s.db.beginErr = none) := by
  unfold store.Create store.update at h
  cases htx : ctx.tx with
  | none =>
    rw [htx] at h
    cases hb : s.db.beginErr with
    | some e => simp [DB.Update, hb] at h
    | none =>
      simp only [DB.Update, hb, Prod.mk.injEq] at h
      exact ⟨h.1.symm, Or.inr rfl⟩
  | some tx =>
    rw [htx] at h
    cases hw : tx.writable with
    | false => simp [hw] at h
    | true =>
      simp only [hw, Bool.not_true, Bool.false_eq_true, if_false, Prod.mk.injEq] at h
      exact ⟨h.1.symm, Or.inl (by simp)⟩

theorem store_get_stored (s : store) (ctx : Context) (mgr net id : String)
    (r : AttachmentRecord) (hv : ctx.tx ≠ none ∨ s.db.beginErr = none)
    (hr : mapGet s.t id = some r) : s.Get ctx mgr net id = .ok r := by
  unfold store.Get store.view
  cases htx : ctx.tx with
  | none =>
    have hb : s.db.beginErr = none := by
      rcases hv with hv | hv
      · exact absurd htx hv
      · exact hv
    simp [DB.View, hb, hr]
  | some tx => simp [hr]

theorem foldl_logged {σ α : Type} (fn : σ → α → σ × Option GoError) (l : List α)
    (st : σ) (log : List α) :
    (l.foldl (fun acc x => (logged fn acc x).1) (st, log)).2 = log ++ l := by
  induction l generalizing st log with
  | nil => simp
  | cons x rest ih =>
    rw [List.foldl_cons, show (logged fn (st, log) x).1 = ((fn st x).1, log ++ [x]) from rfl, ih]
    simp

theorem store_walk_eq {σ : Type} (s : store) (ctx : Context) (mgr net : String)
    (fn : σ → AttachmentRecord → σ × Option GoError) (st : σ)
    (hv : ctx.tx ≠ none ∨ s.db.beginErr = none) :
    s.Walk ctx mgr net fn st
      = ((mapValues s.t).foldl (fun acc r => (fn acc r).1) st, none) := by
  unfold store.Walk store.view
  cases htx : ctx.tx with
  | none =>
    have hb : s.db.beginErr = none := by
      rcases hv with hv | hv
      · exact absurd htx hv
      · exact hv
    simp only [DB.View, hb]
  | some tx => rfl

/-! ## Theorems -/

/-- C1: in a context of namespace `ns`, with options that yield the arguments
`args`, `network.Attach` returns what `store.Create` returns on the record
whose ID is the string manager/network/ns/container/ifname, which is the value
of `generateAttachmentID` on these five strings; the ID is a function of the
five values alone. -/
theorem attach_hands_generated_id_to_create (n : network) (ctx : Context)
    (options : List AttachmentOption) (s : store) (ns : String) (args : AttachmentArgs)
    (hns : NamespaceRequired ctx = .ok ns) (hopt : applyOptions options {} = .ok args) :
    generateAttachmentID n.NetworkInfo.Manager n.NetworkInfo.Name ns args.Container args.IFName
        = n.NetworkInfo.Manager ++ "/" ++ n.NetworkInfo.Name ++ "/" ++ ns ++ "/"
            ++ args.Container ++ "/" ++ args.IFName
      ∧ n.Attach ctx options s =
        (match s.Create ctx n.NetworkInfo.Manager n.NetworkInfo.Name
            { ID := n.NetworkInfo.Manager ++ "/" ++ n.NetworkInfo.Name ++ "/" ++ ns ++ "/"
                      ++ args.Container ++ "/" ++ args.IFName,
              Args := some args,
              Status := 0 } with
          | (s', some e) => (s', .error e)
          | (s', none) =>
            (s', .ok { AttachmentInfo :=
                        { Manager := n.NetworkInfo.Manager, Network := n.NetworkInfo.Name } })) := by
  refine ⟨generateAttachmentID_eq _ _ _ _ _, ?_⟩
  simp only [network.Attach, hns, hopt, generateAttachmentID_eq]

/-- C1, at a concrete input: the network `web` of the manager `default`,
namespace `ns1`, container `c1`, interface `eth0`. -/
theorem attach_hands_generated_id_to_create_witness :
    NamespaceRequired ctxNs1 = .ok "ns1"
      ∧ applyOptions [withContainerIF "c1" "eth0"] {}
          = .ok { Container := "c1", IFName := "eth0" }
      ∧ generateAttachmentID "default" "web" "ns1" "c1" "eth0"
          = "default" ++ "/" ++ "web" ++ "/" ++ "ns1" ++ "/" ++ "c1" ++ "/" ++ "eth0"
      ∧ netWeb.Attach ctxNs1 [withContainerIF "c1" "eth0"] {} =
        (match ({} : store).Create ctxNs1 "default" "web"
            { ID := "default" ++ "/" ++ "web" ++ "/" ++ "ns1" ++ "/" ++ "c1" ++ "/" ++ "eth0",
              Args := some { Container := "c1", IFName := "eth0" },
              Status := 0 } with
          | (s', some e) => (s', .error e)
          | (s', none) =>
            (s', .ok { AttachmentInfo := { Manager := "default", Network := "web" } })) :=
  ⟨by decide, by decide,
    attach_hands_generated_id_to_create netWeb ctxNs1 [withContainerIF "c1" "eth0"] {} "ns1"
      { Container := "c1", IFName := "eth0" } (by decide) (by decide)⟩

/-- C2: on the network `web` of the manager `default`, in namespace `ns1`, with
container `c1` and interface `eth0`, `Local.AttachNetwork` succeeds and stores
the record `default/web/ns1/c1/eth0`, but the `AttachmentInfo` it returns has
the empty string as ID; likewise without options, where the stored record has
the ID `default/web/ns1//`. -/
theorem attachNetwork_returns_empty_id :
    localDefault.AttachNetwork ctxNs1 "web" [withContainerIF "c1" "eth0"] {}
      = ({ t := [("default/web/ns1/c1/eth0", recWebC1)] },
         .ok { ID := "", Manager := "default", Network := "web" })
    ∧ localDefault.AttachNetwork ctxNs1 "web" [] {}
      = ({ t := [("default/web/ns1//", { ID := "default/web/ns1//", Args := some {} })] },
         .ok { ID := "", Manager := "default", Network := "web" }) := by
  decide

/-- C3: `store.Create` on an ID that is already stored returns `nil` and puts
the new record in the place of the stored one; a second `Attach` with the
arguments of a first, successful one succeeds as well. -/
theorem create_overwrites_stored_record :
    ({ t := [("x", { ID := "x", Status := 1, Result := some "res" })] } : store).Create
        ctxNs1 "default" "web" { ID := "x" }
      = ({ t := [("x", { ID := "x" })] }, none)
    ∧ netWeb.Attach ctxNs1 [withContainerIF "c1" "eth0"] {}
      = ({ t := [("default/web/ns1/c1/eth0", recWebC1)] },
         .ok { AttachmentInfo := { Manager := "default", Network := "web" } })
    ∧ netWeb.Attach ctxNs1 [withContainerIF "c1" "eth0"]
        { t := [("default/web/ns1/c1/eth0", recWebC1)] }
      = ({ t := [("default/web/ns1/c1/eth0", recWebC1)] },
         .ok { AttachmentInfo := { Manager := "default", Network := "web" } }) := by
  decide

/-- C4: after the successful `Attach` of container `c1`, interface `eth0` on
`web`, `store.Get` of the computed ID returns the record as `Attach` created
it, whose status is 0, the pending value: `Attach` returns right after
`store.Create`. -/
theorem attach_leaves_status_pending :
    (netWeb.Attach ctxNs1 [withContainerIF "c1" "eth0"] {}).2
      = .ok { AttachmentInfo := { Manager := "default", Network := "web" } }
    ∧ (netWeb.Attach ctxNs1 [withContainerIF "c1" "eth0"] {}).1.Get ctxNs1 "default" "web"
        (generateAttachmentID "default" "web" "ns1" "c1" "eth0") = .ok recWebC1
    ∧ recWebC1.Status = 0 := by
  decide

/-- Whenever `network.Attach` returns without error, `store.Get` of the
computed attachment ID, in the same context, returns the record that `Attach`
created: that ID, the arguments built from the options, and the status 0 it
was created with. -/
theorem attach_then_get_returns_created_record (n : network) (ctx : Context)
    (options : List AttachmentOption) (s s1 : store) (a : attachment)
    (h : n.Attach ctx options s = (s1, .ok a)) :
    ∃ ns args, NamespaceRequired ctx = .ok ns ∧ applyOptions options {} = .ok args
      ∧ s1.Get ctx n.NetworkInfo.Manager n.NetworkInfo.Name
          (generateAttachmentID n.NetworkInfo.Manager n.NetworkInfo.Name ns
            args.Container args.IFName)
        = .ok { ID := generateAttachmentID n.NetworkInfo.Manager n.NetworkInfo.Name ns
                        args.Container args.IFName,
                Args := some args,
                Status := 0 } := by
  unfold network.Attach at h
  cases hns : NamespaceRequired ctx with
  | error e => simp [hns] at h
  | fault msg => simp [hns] at h
  | ok ns =>
    cases hopt : applyOptions options {} with
    | error e => simp [hns, hopt] at h
    | fault msg => simp [hns, hopt] at h
    | ok args =>
      refine ⟨ns, args, rfl, rfl, ?_⟩
      simp only [hns, hopt] at h
      obtain ⟨r, hr⟩ : ∃ r : AttachmentRecord, r =
          { ID := generateAttachmentID n.NetworkInfo.Manager n.NetworkInfo.Name ns
                    args.Container args.IFName,
            Args := some args,
            Status := 0 } := ⟨_, rfl⟩
      rw [← hr] at h ⊢
      have hid : r.ID = generateAttachmentID n.NetworkInfo.Manager n.NetworkInfo.Name ns
                        args.Container args.IFName := by rw [hr]
      rw [← hid]
      cases hc : s.Create ctx n.NetworkInfo.Manager n.NetworkInfo.Name r with
      | mk s2 e =>
        cases e with
        | some e => simp [hc] at h
        | none =>
          simp only [hc, Prod.mk.injEq] at h
          obtain ⟨hs, hv⟩ := store_create_nil hc
          rw [← h.1, hs]
          exact store_get_stored _ ctx _ _ _ r hv (mapGet_mapSet_self _ _ _)

/-- The record read back after `Attach`, at a concrete input: `web`, namespace
`ns1`, container `c1`, interface `eth0`, empty store. -/
theorem attach_then_get_returns_created_record_witness :
    netWeb.Attach ctxNs1 [withContainerIF "c1" "eth0"] {}
        = ({ t := [("default/web/ns1/c1/eth0", recWebC1)] },
           .ok { AttachmentInfo := { Manager := "default", Network := "web" } })
      ∧ ∃ ns args, NamespaceRequired ctxNs1 = .ok ns
          ∧ applyOptions [withContainerIF "c1" "eth0"] {} = .ok args
          ∧ ({ t := [("default/web/ns1/c1/eth0", recWebC1)] } : store).Get ctxNs1
                netWeb.NetworkInfo.Manager netWeb.NetworkInfo.Name
                (generateAttachmentID netWeb.NetworkInfo.Manager netWeb.NetworkInfo.Name ns
                  args.Container args.IFName)
              = .ok { ID := generateAttachmentID netWeb.NetworkInfo.Manager
                              netWeb.NetworkInfo.Name ns args.Container args.IFName,
                      Args := some args,
                      Status := 0 } :=
  ⟨by decide,
    attach_then_get_returns_created_record netWeb ctxNs1 [withContainerIF "c1" "eth0"] {}
      { t := [("default/web/ns1/c1/eth0", recWebC1)] }
      { AttachmentInfo := { Manager := "default", Network := "web" } } (by decide)⟩

/-- C5: after the successful `AttachNetwork` of container `c1`, interface
`eth0` on `web`, `DetachNetwork` of the attachment ID returns without error and
leaves the store as it was: `store.Get` still returns the record, and
`GetAttachment` of that ID succeeds. -/
theorem detachNetwork_keeps_record :
    localDefault.AttachNetwork ctxNs1 "web" [withContainerIF "c1" "eth0"] {}
      = ({ t := [("default/web/ns1/c1/eth0", recWebC1)] },
         .ok { Manager := "default", Network := "web" })
    ∧ localDefault.DetachNetwork ctxNs1 "web" "default/web/ns1/c1/eth0"
        { t := [("default/web/ns1/c1/eth0", recWebC1)] }
      = ({ t := [("default/web/ns1/c1/eth0", recWebC1)] }, .ok ())
    ∧ ({ t := [("default/web/ns1/c1/eth0", recWebC1)] } : store).Get ctxNs1 "default" "web"
        "default/web/ns1/c1/eth0" = .ok recWebC1
    ∧ localDefault.GetAttachment ctxNs1 "web" "default/web/ns1/c1/eth0"
      = .ok { Manager := "default", Network := "web" } := by
  decide

/-- C6: on the empty store the ID `x` is not stored; `store.Get` and
`store.Delete` of `x` return the error `not found`, but `store.Update` of a
record with ID `x` returns `nil`. -/
theorem update_of_missing_id_returns_nil :
    mapGet ({} : store).t "x" = none
    ∧ ({} : store).Update ctxNs1 "default" "web" { ID := "x", Status := 1 } = ({}, none)
    ∧ ({} : store).Get ctxNs1 "default" "web" "x" = .error (.errorf "not found")
    ∧ ({} : store).Delete ctxNs1 "default" "web" "x" = ({}, some (.errorf "not found")) := by
  decide

/-- C7: with the record `x` stored in status 0 and without result,
`store.Update` called with a record of ID `x`, status 1 and a result returns
`nil`, and `store.Get` of `x` afterwards still returns status 0 and no
result. -/
theorem update_keeps_status_and_result :
    ({ t := [("x", { ID := "x", Status := 0, Result := none })] } : store).Update
        ctxNs1 "default" "web" { ID := "x", Status := 1, Result := some "res" }
      = ({ t := [("x", { ID := "x", Status := 0, Result := none })] }, none)
    ∧ (({ t := [("x", { ID := "x", Status := 0, Result := none })] } : store).Update
        ctxNs1 "default" "web" { ID := "x", Status := 1, Result := some "res" }).1.Get
          ctxNs1 "default" "web" "x"
      = .ok { ID := "x", Status := 0, Result := none } := by
  decide

/-- C8: with one attachment stored for the network `web` and one for the
network `db`, `network.Walk` on `web` calls its callback twice, and
`ListAttachments` of `web` returns two entries. -/
theorem network_walk_visits_other_networks :
    (netDb.Attach ctxNs1 [withContainerIF "c1" "eth0"]
        (netWeb.Attach ctxNs1 [withContainerIF "c1" "eth0"] {}).1).1
      = { t := [("default/web/ns1/c1/eth0", recWebC1), ("default/db/ns1/c1/eth0", recDbC1)] }
    ∧ netWeb.Walk ctxNs1 (logged (fun (u : Unit) (_ : attachment) => (u, none)))
        { t := [("default/web/ns1/c1/eth0", recWebC1), ("default/db/ns1/c1/eth0", recDbC1)] }
        ((), [])
      = (((), [{ AttachmentInfo := { Manager := "default", Network := "web" } },
               { AttachmentInfo := { Manager := "default", Network := "web" } }]), none)
    ∧ localDefault.ListAttachments ctxNs1 "web" []
        { t := [("default/web/ns1/c1/eth0", recWebC1), ("default/db/ns1/c1/eth0", recDbC1)] }
      = .ok [{ Manager := "default", Network := "web" },
             { Manager := "default", Network := "web" }] := by
  decide

/-- C9, as stated, fails: on a store with two records, a callback that returns
an error on every record is called on the first record and then on the second
one as well. -/
theorem walk_continues_after_callback_error :
    ({ t := [("default/web/ns1/c1/eth0", recWebC1), ("default/db/ns1/c1/eth0", recDbC1)] }
        : store).Walk ctxNs1 "default" "web"
        (logged (fun (u : Unit) (_ : AttachmentRecord) => (u, some (.errorf "stop"))))
        ((), [])
      = (((), [recWebC1, recDbC1]), none) := by
  decide

/-- C9, amended: when the read transaction is available (an ambient one in
the context, or a database that opens one), `store.Walk` calls the callback on
every stored record, once each and in iteration order, whatever the callback
returns, and returns `nil`. -/
theorem walk_calls_callback_on_every_record {σ : Type} (s : store) (ctx : Context)
    (mgr net : String) (fn : σ → AttachmentRecord → σ × Option GoError) (st : σ)
    (hv : ctx.tx ≠ none ∨ s.db.beginErr = none) :
    (s.Walk ctx mgr net (logged fn) (st, [])).2 = none
      ∧ (s.Walk ctx mgr net (logged fn) (st, [])).1.2 = mapValues s.t := by
  have hw := store_walk_eq s ctx mgr net (logged fn) (st, []) hv
  rw [hw]
  exact ⟨rfl, by simpa using foldl_logged fn (mapValues s.t) st []⟩

/-- C9, amended, at a concrete input: two stored records and a callback that
fails on every record. -/
theorem walk_calls_callback_on_every_record_witness :
    (ctxNs1.tx ≠ none ∨ ({ t := [("default/web/ns1/c1/eth0", recWebC1),
        ("default/db/ns1/c1/eth0", recDbC1)] } : store).db.beginErr = none)
      ∧ (({ t := [("default/web/ns1/c1/eth0", recWebC1), ("default/db/ns1/c1/eth0", recDbC1)] }
            : store).Walk ctxNs1 "default" "web"
            (logged (fun (u : Unit) (_ : AttachmentRecord) => (u, some (.errorf "stop"))))
            ((), [])).2 = none
      ∧ (({ t := [("default/web/ns1/c1/eth0", recWebC1), ("default/db/ns1/c1/eth0", recDbC1)] }
            : store).Walk ctxNs1 "default" "web"
            (logged (fun (u : Unit) (_ : AttachmentRecord) => (u, some (.errorf "stop"))))
            ((), [])).1.2
          = mapValues ({ t := [("default/web/ns1/c1/eth0", recWebC1),
              ("default/db/ns1/c1/eth0", recDbC1)] } : store).t :=
  ⟨Or.inr rfl,
    walk_calls_callback_on_every_record
      { t := [("default/web/ns1/c1/eth0", recWebC1), ("default/db/ns1/c1/eth0", recDbC1)] }
      ctxNs1 "default" "web"
      (fun (u : Unit) (_ : AttachmentRecord) => (u, some (.errorf "stop"))) () (Or.inr rfl)⟩

/-- C10: for every manager, registered or not the name `x`, `manager.Create`
of `x` succeeds; afterwards `manager.Network` of `x` and `GetNetwork` of `x`
return the info with the manager name and the name `x` (and the zero
configuration), and the lookup of every other name is unchanged. -/
theorem create_then_network_returns_info (l : Local) (ctx ctx1 : Context) (x : String)
    (options : List NetworkOption) :
    (l.m.Create ctx x options).2
        = .ok { NetworkInfo := { Manager := l.m.name, Name := x } }
      ∧ (l.CreateNetwork ctx x options).2 = .ok { Manager := l.m.name, Name := x }
      ∧ (l.m.Create ctx x options).1.Network ctx1 x
        = .ok { NetworkInfo := { Manager := l.m.name, Name := x } }
      ∧ (l.CreateNetwork ctx x options).1.GetNetwork ctx1 x
        = .ok { Manager := l.m.name, Name := x }
      ∧ (l.m.Create ctx x options).1.name = l.m.name
      ∧ ∀ y, y ≠ x →
          (l.m.Create ctx x options).1.Network ctx1 y = l.m.Network ctx1 y
          ∧ (l.CreateNetwork ctx x options).1.GetNetwork ctx1 y = l.GetNetwork ctx1 y := by
  refine ⟨rfl, rfl, ?_, ?_, rfl, ?_⟩
  · simp [manager.Create, manager.Network, mapGet_mapSet_self]
  · simp [Local.CreateNetwork, Local.GetNetwork, manager.Create, manager.Network,
      mapGet_mapSet_self, network.Info]
  · intro y hy
    constructor
    · simp [manager.Create, manager.Network, mapGet_mapSet_ne _ _ _ _ hy]
    · simp [Local.CreateNetwork, Local.GetNetwork, manager.Create, manager.Network,
        mapGet_mapSet_ne _ _ _ _ hy]

/-- C10, at a concrete input: `web` is created again on the manager `default`
that has `web` and `db` registered; `db` is looked up afterwards. -/
theorem create_then_network_returns_info_witness :
    "db" ≠ "web"
      ∧ (localDefault.m.Create ctxNs1 "web" []).1.Network ctxNs1 "db"
          = localDefault.m.Network ctxNs1 "db"
      ∧ (localDefault.CreateNetwork ctxNs1 "web" []).1.GetNetwork ctxNs1 "db"
          = localDefault.GetNetwork ctxNs1 "db" :=
  ⟨by decide,
    (create_then_network_returns_info localDefault ctxNs1 ctxNs1 "web" []).2.2.2.2.2 "db"
      (by decide)⟩

/-! ## Registry, namespaces and the RPC service -/

/-- C11, as stated, fails: `manager.Delete` of a name that is not registered
returns the error `fmt.Errorf("")`, which is not of the kind `NotFound`. -/
theorem manager_delete_error_has_no_kind :
    ({ name := "default" } : manager).Delete ctxNs1 "x"
      = ({ name := "default" }, some (.errorf ""))
    ∧ IsNotFound (.errorf "") = false
    ∧ (GoError.errorf "").kind = none := by
  decide

/-- C11, amended: `manager.Delete` of a name that is not registered fails
with the error `fmt.Errorf("")` and leaves the manager unchanged; of a
registered name it returns `nil`, after which the name is not registered and
the lookup of every other name is as before. -/
theorem manager_delete_removes_exactly_the_entry (m : manager) (ctx ctx1 : Context)
    (x : String) :
    (mapGet m.networks x = none → m.Delete ctx x = (m, some (.errorf "")))
      ∧ (∀ n, mapGet m.networks x = some n →
          (m.Delete ctx x).2 = none
          ∧ (m.Delete ctx x).1.networks = mapDelete m.networks x
          ∧ (m.Delete ctx x).1.Network ctx1 x = .error (.errorf "")
          ∧ ∀ y, y ≠ x → (m.Delete ctx x).1.Network ctx1 y = m.Network ctx1 y) := by
  constructor
  · intro h
    simp [manager.Delete, h]
  · intro n h
    refine ⟨by simp [manager.Delete, h], by simp [manager.Delete, h], ?_, ?_⟩
    · simp [manager.Delete, h, manager.Network, mapGet_mapDelete_self]
    · intro y hy
      simp [manager.Delete, h, manager.Network, mapGet_mapDelete_ne _ _ _ hy]

/-- C11, amended, at a concrete input: `x` on a manager without networks, and
`web` on the manager `default` with `web` and `db` registered. -/
theorem manager_delete_removes_exactly_the_entry_witness :
    mapGet ({ name := "default" } : manager).networks "x" = none
      ∧ ({ name := "default" } : manager).Delete ctxNs1 "x"
          = ({ name := "default" }, some (.errorf ""))
      ∧ mapGet localDefault.m.networks "web" = some netWeb
      ∧ "db" ≠ "web"
      ∧ (localDefault.m.Delete ctxNs1 "web").1.Network ctxNs1 "db"
          = localDefault.m.Network ctxNs1 "db" :=
  ⟨by decide,
    (manager_delete_removes_exactly_the_entry { name := "default" } ctxNs1 ctxNs1 "x").1
      (by decide),
    by decide, by decide,
    ((manager_delete_removes_exactly_the_entry localDefault.m ctxNs1 ctxNs1 "web").2 netWeb
      (by decide)).2.2.2 "db" (by decide)⟩

/-- C12, as stated, fails: after `web` is created with a context in the
namespace `A`, reading `web` through the same manager with a context in the
namespace `B` returns the network. -/
theorem network_read_from_other_namespace_succeeds :
    (({ name := "default" } : manager).Create { ns := some "A" } "web" []).1.Network
        { ns := some "B" } "web"
      = .ok { NetworkInfo := { Manager := "default", Name := "web" } } := by
  decide

/-- C12, amended: for two distinct namespaces A and B and every name `x`,
after `x` is created through a manager with a context in A, reading `x`
through the same manager with a context in B returns the network created:
the registry is keyed by the name alone. -/
theorem network_registry_ignores_namespace (m : manager) (ctxA ctxB : Context) (a b x : String)
    (options : List NetworkOption)
    (_ha : NamespaceRequired ctxA = .ok a) (_hb : NamespaceRequired ctxB = .ok b)
    (_hab : a ≠ b) :
    (m.Create ctxA x options).1.Network ctxB x
      = .ok { NetworkInfo := { Manager := m.name, Name := x } } := by
  simp [manager.Create, manager.Network, mapGet_mapSet_self]

/-- C12, amended, at a concrete input: namespaces `A` and `B`, name `web`. -/
theorem network_registry_ignores_namespace_witness :
    NamespaceRequired { ns := some "A" } = .ok "A"
      ∧ NamespaceRequired { ns := some "B" } = .ok "B"
      ∧ "A" ≠ "B"
      ∧ (({ name := "default" } : manager).Create { ns := some "A" } "web" []).1.Network
          { ns := some "B" } "web"
        = .ok { NetworkInfo := { Manager := ({ name := "default" } : manager).name,
                                 Name := "web" } } :=
  ⟨by decide, by decide, by decide,
    network_registry_ignores_namespace { name := "default" } { ns := some "A" }
      { ns := some "B" } "A" "B" "web" [] (by decide) (by decide) (by decide)⟩

/-- C13, as stated, fails: with a context that carries no namespace,
`store.Create` returns `nil` and stores the record, `store.Get` returns it and
`store.Delete` removes it. -/
theorem store_operations_run_without_namespace :
    NamespaceRequired {} = .error (.wrapf "namespace is required: " (.errdef .FailedPrecondition))
    ∧ ({} : store).Create {} "default" "web" recWebC1
      = ({ t := [("default/web/ns1/c1/eth0", recWebC1)] }, none)
    ∧ ({ t := [("default/web/ns1/c1/eth0", recWebC1)] } : store).Get {} "default" "web"
        "default/web/ns1/c1/eth0" = .ok recWebC1
    ∧ ({ t := [("default/web/ns1/c1/eth0", recWebC1)] } : store).Delete {} "default" "web"
        "default/web/ns1/c1/eth0" = ({}, none) := by
  decide

/-- C13, amended: the operations of the attachment store do not resolve a
namespace: each returns the same with the namespace of the context replaced by
any other or by none.  The namespace is required by `network.Attach`, which
with a context without namespace fails and leaves the store as it was. -/
theorem store_ignores_namespace_attach_requires_it (s : store) (ctx : Context)
    (ns1 : Option String) (mgr net id : String) (r : AttachmentRecord) :
    s.Create { ctx with ns := ns1 } mgr net r = s.Create ctx mgr net r
      ∧ s.Update { ctx with ns := ns1 } mgr net r = s.Update ctx mgr net r
      ∧ s.Get { ctx with ns := ns1 } mgr net id = s.Get ctx mgr net id
      ∧ s.Delete { ctx with ns := ns1 } mgr net id = s.Delete ctx mgr net id
      ∧ (∀ (σ : Type) (fn : σ → AttachmentRecord → σ × Option GoError) (st : σ),
          s.Walk { ctx with ns := ns1 } mgr net fn st = s.Walk ctx mgr net fn st)
      ∧ (∀ (n : network) (options : List AttachmentOption),
          n.Attach { ctx with ns := none } options s
            = (s, .error (.wrapf "namespace is required: " (.errdef .FailedPrecondition)))) :=
  ⟨rfl, rfl, rfl, rfl, fun _ _ _ => rfl, fun _ _ => rfl⟩

/-- C14: the network that `manager.Create` returns, the same that
`manager.Network` returns afterwards, has no manager set, and its `Delete`
panics on the `nil` interface; this holds for every manager and name. -/
theorem network_delete_panics :
    (localDefault.m.Create ctxNs1 "web" []).2 = .ok netWeb
    ∧ (localDefault.m.Create ctxNs1 "web" []).1.Network ctxNs1 "web" = .ok netWeb
    ∧ netWeb.manager = none
    ∧ netWeb.Delete ctxNs1 (localDefault.m.Create ctxNs1 "web" []).1
      = ((localDefault.m.Create ctxNs1 "web" []).1,
         .fault "invalid memory address or nil pointer dereference")
    ∧ ∀ (m m0 : manager) (ctx : Context) (x : String) (options : List NetworkOption),
        ∃ n, (m.Create ctx x options).2 = .ok n
          ∧ (n.Delete ctx m0).2 = .fault "invalid memory address or nil pointer dereference" := by
  refine ⟨by decide, by decide, by decide, by decide, ?_⟩
  intro m m0 ctx x options
  exact ⟨_, rfl, rfl⟩

/-- C15: the handlers `GetAttachment` and `ListAttachments`, called with an
empty manager name or with the name of a manager that is not configured,
panic; the handler `GetNetwork` returns the status `InvalidArgument` on the
same requests. -/
theorem handlers_without_manager_check_panic :
    svcDefault.GetAttachment ctxNs1 { NetworkManager := "" }
      = .fault "invalid memory address or nil pointer dereference"
    ∧ svcDefault.GetAttachment ctxNs1 { NetworkManager := "other", NetworkName := "web" }
      = .fault "invalid memory address or nil pointer dereference"
    ∧ svcDefault.ListAttachments ctxNs1 { NetworkManager := "" } {}
      = .fault "invalid memory address or nil pointer dereference"
    ∧ svcDefault.ListAttachments ctxNs1 { NetworkManager := "other", NetworkName := "web" } {}
      = .fault "invalid memory address or nil pointer dereference"
    ∧ svcDefault.GetNetwork ctxNs1 { NetworkManager := "" }
      = .error (.grpcStatus .InvalidArgument "network manager name missing: invalid argument")
    ∧ svcDefault.GetNetwork ctxNs1 { NetworkManager := "other", NetworkName := "web" }
      = .error (.grpcStatus .InvalidArgument
          "network manager not configured: other: invalid argument") := by
  decide

/-- C16: for a request that names the configured manager `default`, the
handler `CheckAttachment` answers `Ok = false` when the check of the local
service returned no error (network `web`) and `Ok = true` when it returned an
error (no network `nope`). -/
theorem checkAttachment_ok_is_inverted :
    localDefault.CheckAttachment ctxNs1 "web" "default/web/ns1/c1/eth0" = .ok ()
    ∧ svcDefault.CheckAttachment ctxNs1
        { NetworkManager := "default", NetworkName := "web",
          AttachmentId := "default/web/ns1/c1/eth0" }
      = .ok { NetworkManager := "default", NetworkName := "web",
              AttachmentId := "default/web/ns1/c1/eth0", Ok := false }
    ∧ localDefault.CheckAttachment ctxNs1 "nope" "a" = .error (.errorf "")
    ∧ svcDefault.CheckAttachment ctxNs1
        { NetworkManager := "default", NetworkName := "nope", AttachmentId := "a" }
      = .ok { NetworkManager := "default", NetworkName := "nope", AttachmentId := "a",
              Ok := true } := by
  decide

/-! ## Local and proxy adapters -/

theorem getService_configured (client : service) (name : String) (l : Local)
    (hname : name ≠ "") (hl : mapGet client.locals name = some l) :
    client.getService name = .ok l := by
  simp [service.getService, hname, hl]

theorem store_create_error_any_record (s : store) (ctx : Context) (mgr net mgr1 net1 : String)
    (r r1 : AttachmentRecord) :
    (s.Create ctx mgr net r).2 = (s.Create ctx mgr1 net1 r1).2 := by
  unfold store.Create store.update
  cases ctx.tx with
  | none =>
    cases hb : s.db.beginErr with
    | none => simp [DB.Update, hb]
    | some e => simp [DB.Update, hb]
  | some tx =>
    cases hw : tx.writable <;> simp [hw]

theorem attach_isError_without_options (n : network) (ctx : Context)
    (options : List AttachmentOption) (s : store)
    (hopt : (applyOptions options {}).isOk = true) :
    (n.Attach ctx options s).2.isError = (n.Attach ctx [] s).2.isError := by
  cases ho : applyOptions options {} with
  | error e => simp [ho, Outcome.isOk] at hopt
  | fault msg => simp [ho, Outcome.isOk] at hopt
  | ok args =>
    unfold network.Attach
    cases hns : NamespaceRequired ctx with
    | error e => rfl
    | fault msg => rfl
    | ok ns =>
      simp only [ho, applyOptions]
      have hrec := store_create_error_any_record s ctx n.NetworkInfo.Manager n.NetworkInfo.Name
        n.NetworkInfo.Manager n.NetworkInfo.Name
        { ID := generateAttachmentID n.NetworkInfo.Manager n.NetworkInfo.Name ns
                  args.Container args.IFName,
          Args := some args, Status := 0 }
        { ID := generateAttachmentID n.NetworkInfo.Manager n.NetworkInfo.Name ns
                  ({} : AttachmentArgs).Container ({} : AttachmentArgs).IFName,
          Args := some {}, Status := 0 }
      revert hrec
      generalize s.Create ctx n.NetworkInfo.Manager n.NetworkInfo.Name _ = res1
      generalize s.Create ctx n.NetworkInfo.Manager n.NetworkInfo.Name _ = res2
      intro hrec
      obtain ⟨s1, e1⟩ := res1
      obtain ⟨s2, e2⟩ := res2
      simp only at hrec
      subst hrec
      cases e1 <;> rfl

theorem attach_no_fault_with_ok_options (n : network) (ctx : Context)
    (options : List AttachmentOption) (s : store)
    (hopt : (applyOptions options {}).isOk = true) :
    (n.Attach ctx options s).2.isFault = false := by
  cases ho : applyOptions options {} with
  | error e => simp [ho, Outcome.isOk] at hopt
  | fault msg => simp [ho, Outcome.isOk] at hopt
  | ok args =>
    unfold network.Attach
    cases hns : NamespaceRequired ctx with
    | error e => rfl
    | fault msg => simp [NamespaceRequired] at hns; split at hns <;> simp at hns
    | ok ns =>
      simp only [ho]
      rcases hC : s.Create ctx n.NetworkInfo.Manager n.NetworkInfo.Name
        { ID := generateAttachmentID n.NetworkInfo.Manager n.NetworkInfo.Name ns
                  args.Container args.IFName,
          Args := some args, Status := 0 } with ⟨s1, e1⟩
      cases e1 <;> rfl

/-- C17, as stated, fails: `CheckAttachment` on a network that is not
registered returns an error through the local adapter and none through the
proxy; `AttachNetwork` with an option that fails returns an error through the
local adapter and none through the proxy, which sends no option.  On
`GetNetwork` of the registered network `web` the local adapter returns the
info, while the proxy panics on the field `NetworkConfig` that the handler
leaves unset. -/
theorem proxy_and_local_disagree :
    localDefault.returnsError ctxNs1 {} (.CheckAttachment "nope" "a") = true
    ∧ ({ manager := "default" } : proxy).returnsError svcDefault ctxNs1 {}
        (.CheckAttachment "nope" "a") = false
    ∧ localDefault.returnsError ctxNs1 {}
        (.AttachNetwork "web" [fun _ => .error (.errorf "bad option")]) = true
    ∧ ({ manager := "default" } : proxy).returnsError svcDefault ctxNs1 {}
        (.AttachNetwork "web" [fun _ => .error (.errorf "bad option")]) = false
    ∧ localDefault.GetNetwork ctxNs1 "web" = .ok { Manager := "default", Name := "web" }
    ∧ ({ manager := "default" } : proxy).GetNetwork ctxNs1 "web" svcDefault
      = .fault "invalid memory address or nil pointer dereference" := by
  decide

/-- C17, amended: for a proxy bound to a non-empty manager name whose client
is the RPC service that has the local adapter configured under that name, and
for every call other than `CheckAttachment` and `GetNetwork`, with
`AttachNetwork` taken with options that apply without error, the proxy returns
an error exactly when the local adapter returns an error for the same call in
the same state, and neither of the two panics. -/
theorem proxy_returns_error_iff_local_does (p : proxy) (client : service) (l : Local)
    (ctx : Context) (st : store) (c : ServiceCall)
    (hname : p.manager ≠ "") (hl : mapGet client.locals p.manager = some l)
    (hc : c.comparable = true) :
    p.returnsError client ctx st c = l.returnsError ctx st c
      ∧ p.panics client ctx st c = false
      ∧ l.panics ctx st c = false := by
  have hgs := getService_configured client p.manager l hname hl
  cases c with
  | CreateNetwork name options =>
    simp [proxy.returnsError, Local.returnsError, proxy.panics, Local.panics,
      proxy.CreateNetwork, service.CreateNetwork,
      hgs, Local.CreateNetwork, manager.Create, Outcome.isError, Outcome.isFault]
  | DeleteNetwork name =>
    simp only [proxy.returnsError, Local.returnsError, proxy.panics, Local.panics,
      proxy.DeleteNetwork, service.DeleteNetwork, hgs]
    cases hd : l.DeleteNetwork ctx name with
    | mk l1 e => cases e <;> simp [Outcome.isError, Outcome.isFault]
  | GetNetwork name =>
    simp [ServiceCall.comparable] at hc
  | ListNetworks =>
    simp only [proxy.returnsError, Local.returnsError, proxy.panics, Local.panics,
      proxy.ListNetworks, service.ListNetworks, hgs]
    have hln : l.ListNetworks ctx
        = .ok ((l.m.Walk ctx (fun (res : List NetworkInfo) n => (res ++ [n.Info ctx], none))
            []).1) := rfl
    rw [hln]
    simp [Outcome.isError, Outcome.isFault]
  | AttachNetwork network options =>
    have hopt : (applyOptions options {}).isOk = true := hc
    simp only [proxy.returnsError, Local.returnsError, proxy.panics, Local.panics,
      proxy.AttachNetwork, service.AttachNetwork, hgs, Local.AttachNetwork]
    cases hn : l.m.Network ctx network with
    | error e => simp [Outcome.isError, Outcome.isFault]
    | fault msg => simp [manager.Network] at hn; split at hn <;> simp at hn
    | ok n =>
      have ha := attach_isError_without_options n ctx options st hopt
      have hf := attach_no_fault_with_ok_options n ctx options st hopt
      have hf0 := attach_no_fault_with_ok_options n ctx [] st rfl
      rcases hA : n.Attach ctx options st with ⟨s1, o1⟩
      rcases hB : n.Attach ctx [] st with ⟨s2, o2⟩
      rw [hA, hB] at ha
      rw [hA] at hf
      rw [hB] at hf0
      simp only [hA, hB]
      cases o1 <;> cases o2 <;> simp_all [Outcome.isError, Outcome.isFault]
  | DetachNetwork network attachment =>
    simp only [proxy.returnsError, Local.returnsError, proxy.panics, Local.panics,
      proxy.DetachNetwork, service.DetachNetwork, hgs, Local.DetachNetwork]
    cases hn : l.m.Network ctx network with
    | error e => simp [Outcome.isError, Outcome.isFault]
    | fault msg => simp [manager.Network] at hn; split at hn <;> simp at hn
    | ok n =>
      simp [Containerd.network.Attachment, Containerd.attachment.Remove, Outcome.ofError,
        Outcome.isError,
        Outcome.isFault]
  | GetAttachment network attachment =>
    simp only [proxy.returnsError, Local.returnsError, proxy.panics, Local.panics,
      proxy.GetAttachment, service.GetAttachment, hgs, Local.GetAttachment]
    cases hn : l.m.Network ctx network with
    | error e => simp [Outcome.isError, Outcome.isFault]
    | fault msg => simp [manager.Network] at hn; split at hn <;> simp at hn
    | ok n =>
      simp [Containerd.network.Attachment, Outcome.isError, Outcome.isFault]
  | CheckAttachment network attachment =>
    simp [ServiceCall.comparable] at hc
  | ListAttachments network options =>
    simp only [proxy.returnsError, Local.returnsError, proxy.panics, Local.panics,
      proxy.ListAttachments, service.ListAttachments, hgs, Local.ListAttachments]
    cases hn : l.m.Network ctx network with
    | error e => simp [Outcome.isError, Outcome.isFault]
    | fault msg => simp [manager.Network] at hn; split at hn <;> simp at hn
    | ok n =>
      rcases hw : n.Walk ctx (fun (res : List AttachmentInfo) a => (res ++ [a.Info ctx], none))
        st [] with ⟨res, e⟩
      simp only [hw]
      cases e <;> simp [Outcome.isError, Outcome.isFault]

/-- C17, amended, at a concrete input: `DeleteNetwork` of a network that is
not registered, through the proxy of the manager `default`. -/
theorem proxy_returns_error_iff_local_does_witness :
    ({ manager := "default" } : proxy).manager ≠ ""
      ∧ mapGet svcDefault.locals ({ manager := "default" } : proxy).manager = some localDefault
      ∧ (ServiceCall.DeleteNetwork "nope").comparable = true
      ∧ localDefault.returnsError ctxNs1 {} (.DeleteNetwork "nope") = true
      ∧ (({ manager := "default" } : proxy).returnsError svcDefault ctxNs1 {}
            (.DeleteNetwork "nope")
          = localDefault.returnsError ctxNs1 {} (.DeleteNetwork "nope")
        ∧ ({ manager := "default" } : proxy).panics svcDefault ctxNs1 {}
            (.DeleteNetwork "nope") = false
        ∧ localDefault.panics ctxNs1 {} (.DeleteNetwork "nope") = false) :=
  ⟨by decide, by decide, by decide, by decide,
    proxy_returns_error_iff_local_does { manager := "default" } svcDefault localDefault ctxNs1 {}
      (.DeleteNetwork "nope") (by decide) (by decide) (by decide)⟩

/-! ## Garbage collection -/

theorem dropWhile_head_false {α : Type} (p : α → Bool) (l : List α) (d : α) (rest : List α)
    (h : l.dropWhile p = d :: rest) : p d = false := by
  induction l with
  | nil => simp at h
  | cons a l ih =>
    rw [List.dropWhile_cons] at h
    by_cases hp : p a = true
    · rw [if_pos hp] at h
      exact ih h
    · rw [if_neg hp] at h
      have : a = d := by injection h
      subst this
      simpa using hp

theorem sscanf_two_strings_fails (key : String) :
    ∃ e, Sscanf key "%s/%s" = .error e := by
  unfold Sscanf
  have hf : "%s/%s".data = ['%', 's', '/', '%', 's'] := rfl
  rw [hf]
  cases h1 : key.data.dropWhile isSpace with
  | nil => exact ⟨.errorf "unexpected EOF", by simp [sscanfAux, h1]⟩
  | cons c rest =>
    cases h2 : (c :: rest).dropWhile (fun x => !isSpace x) with
    | nil => exact ⟨.errorf "unexpected EOF", by simp [sscanfAux, h1, h2]⟩
    | cons d rest2 =>
      have hd := dropWhile_head_false _ _ _ _ h2
      have hne : ¬ ('/' = d) := by
        intro e
        subst e
        simp [isSpace] at hd
      exact ⟨.errorf "input does not match format", by simp [sscanfAux, h1, h2, hne]⟩

theorem envFinishStep_skips (st : GoMap Env × Buckets) (n : Node) : envFinishStep st n = st := by
  unfold envFinishStep envFinishStepWith
  obtain ⟨e, he⟩ := sscanf_two_strings_fails n.Key
  by_cases ht : n.Type_ ≠ ResourceNetwork
  · simp [ht]
  · simp [ht, he]

theorem foldl_envFinishStep (nodes : List Node) (st : GoMap Env × Buckets) :
    nodes.foldl envFinishStep st = st := by
  induction nodes with
  | nil => rfl
  | cons n rest ih => rw [List.foldl_cons, envFinishStep_skips, ih]

theorem gccontext_step_leases (cs : gccontext × store) (op : GcOp) :
    (gccontext.step cs op).1.leases = cs.1.leases := by
  cases op with
  | Remove n =>
    simp only [gccontext.step, gccontext.Remove]
    split <;> rfl
  | Cancel => rfl
  | Finish => rfl

theorem gccontext_run_leases (ops : List GcOp) (cs : gccontext × store) :
    (ops.foldl gccontext.step cs).1.leases = cs.1.leases := by
  induction ops generalizing cs with
  | nil => rfl
  | cons op rest ih => rw [List.foldl_cons, ih, gccontext_step_leases]

/-- C18: on every context that the collector of the package `networks` hands
out with `StartCollection`, after any steps of the pass, no lease has a
recorded attachment, and `Leased` calls `fn` once for each ID recorded under
the lease, which is not at all.  In the package `network`, with the database
opening the read transaction, `Leased` calls `fn` once for each key of the
bucket of the lease, in order, each time with the node of type
`ResourceNetwork`, the namespace and that key; for a lease without bucket `fn`
is not called. -/
theorem leased_calls_fn_once_per_recorded_id :
    (∀ (rc : ResourceCollector) (ctx : Context) (c0 : gccontext) (st : store)
        (ops : List GcOp) (ns lease : String) (σ : Type) (fn : σ → Node → σ) (s0 : σ),
        rc.StartCollection ctx = .ok c0 →
        (c0.run st ops).1.leases = []
        ∧ (c0.run st ops).1.Leased ns lease fn s0
          = (((mapGet (c0.run st ops).1.leases lease).getD []).map
              (gcnode ResourceNetwork "")).foldl fn s0)
    ∧ (∀ (rc : EnvResourceCollector) (ns lease : String) (σ : Type) (fn : σ → Node → σ)
        (s0 : σ),
        rc.db.beginErr = none → [ns] ∈ rc.buckets → [ns, "leases"] ∈ rc.buckets →
        [ns, "leases", lease] ∈ rc.buckets →
        rc.Leased ns lease fn s0
          = ((bucketChildren rc.buckets [ns, "leases", lease]).map
              (gcnode ResourceNetwork ns)).foldl fn s0)
    ∧ (∀ (rc : EnvResourceCollector) (ns lease : String) (σ : Type) (fn : σ → Node → σ)
        (s0 : σ),
        [ns, "leases", lease] ∉ rc.buckets → rc.Leased ns lease fn s0 = s0) := by
  refine ⟨?_, ?_, ?_⟩
  · intro rc ctx c0 st ops ns lease σ fn s0 h0
    have hc0 : c0.leases = [] := by
      simp only [ResourceCollector.StartCollection, Outcome.ok.injEq] at h0
      rw [← h0]
    have hl : (c0.run st ops).1.leases = [] := by
      unfold gccontext.run
      rw [gccontext_run_leases, hc0]
    refine ⟨hl, ?_⟩
    unfold gccontext.Leased
    rw [hl]
    rfl
  · intro rc ns lease σ fn s0 hb h1 h2 h3
    unfold EnvResourceCollector.Leased DB.View
    simp [hb, h1, h2, h3, List.foldl_map]
  · intro rc ns lease σ fn s0 h3
    unfold EnvResourceCollector.Leased DB.View
    cases rc.db.beginErr with
    | some e => rfl
    | none =>
      simp only []
      split
      · rfl
      · split
        · rfl
        · simp [h3]

/-- C18, at a concrete input: the context of the manager `default` after a
`Remove` and a `Finish`, and a collector of the package `network` with two
keys under the lease `L`. -/
theorem leased_calls_fn_once_per_recorded_id_witness :
    ResourceCollector.StartCollection { managers := [("default", localDefault.m)] } ctxNs1
        = .ok { managers := [("default", localDefault.m)] }
      ∧ ((({ managers := [("default", localDefault.m)] } : gccontext).run storeTwo
            [.Remove (gcnode ResourceNetwork "" "default/web/ns1/c1/eth0"), .Finish]).1.leases
          = []
        ∧ (({ managers := [("default", localDefault.m)] } : gccontext).run storeTwo
            [.Remove (gcnode ResourceNetwork "" "default/web/ns1/c1/eth0"), .Finish]).1.Leased
            "ns1" "L" collectNodes []
          = (((mapGet (({ managers := [("default", localDefault.m)] } : gccontext).run storeTwo
                [.Remove (gcnode ResourceNetwork "" "default/web/ns1/c1/eth0"),
                 .Finish]).1.leases "L").getD []).map
              (gcnode ResourceNetwork "")).foldl collectNodes [])
      ∧ EnvResourceCollector.Leased
          { buckets := [["ns1"], ["ns1", "leases"], ["ns1", "leases", "L"],
                        ["ns1", "leases", "L", "env1/res1"],
                        ["ns1", "leases", "L", "env1/res2"]] }
          "ns1" "L" collectNodes []
        = [{ Type_ := 0x11, Namespace := "ns1", Key := "env1/res1" },
           { Type_ := 0x11, Namespace := "ns1", Key := "env1/res2" }]
      ∧ EnvResourceCollector.Leased
          { buckets := [["ns1"], ["ns1", "leases"], ["ns1", "leases", "L"],
                        ["ns1", "leases", "L", "env1/res1"],
                        ["ns1", "leases", "L", "env1/res2"]] }
          "ns1" "L" collectNodes []
        = ((bucketChildren
              ({ buckets := [["ns1"], ["ns1", "leases"], ["ns1", "leases", "L"],
                            ["ns1", "leases", "L", "env1/res1"],
                            ["ns1", "leases", "L", "env1/res2"]] }
                : EnvResourceCollector).buckets
              ["ns1", "leases", "L"]).map
            (gcnode ResourceNetwork "ns1")).foldl collectNodes [] :=
  ⟨by decide,
    leased_calls_fn_once_per_recorded_id.1 { managers := [("default", localDefault.m)] } ctxNs1
      { managers := [("default", localDefault.m)] } storeTwo
      [.Remove (gcnode ResourceNetwork "" "default/web/ns1/c1/eth0"), .Finish] "ns1" "L"
      (List Node) collectNodes [] (by decide),
    by decide,
    leased_calls_fn_once_per_recorded_id.2.1
      { buckets := [["ns1"], ["ns1", "leases"], ["ns1", "leases", "L"],
                    ["ns1", "leases", "L", "env1/res1"],
                    ["ns1", "leases", "L", "env1/res2"]] }
      "ns1" "L" (List Node) collectNodes [] (by decide) (by decide) (by decide) (by decide)⟩

/-- C19: in a pass over the two attachments of `storeTwo`, both passed to
`Remove`, `Finish` returns `nil` and the store still holds both records;
`Finish` returns the store as it was for every context. -/
theorem finish_leaves_attachments_in_store :
    ResourceCollector.StartCollection { managers := [("default", localDefault.m)] } {}
      = .ok { managers := [("default", localDefault.m)] }
    ∧ ((({ managers := [("default", localDefault.m)] } : gccontext).Remove
          (gcnode ResourceNetwork "" "default/web/ns1/c1/eth0")).Remove
          (gcnode ResourceNetwork "" "default/db/ns1/c1/eth0")).removes
      = ["default/web/ns1/c1/eth0", "default/db/ns1/c1/eth0"]
    ∧ ((({ managers := [("default", localDefault.m)] } : gccontext).Remove
          (gcnode ResourceNetwork "" "default/web/ns1/c1/eth0")).Remove
          (gcnode ResourceNetwork "" "default/db/ns1/c1/eth0")).Finish storeTwo
      = (({ managers := [("default", localDefault.m)] }, storeTwo), none)
    ∧ storeTwo.Get ctxNs1 "default" "web" "default/web/ns1/c1/eth0" = .ok recWebC1
    ∧ storeTwo.Get ctxNs1 "default" "db" "default/db/ns1/c1/eth0" = .ok recDbC1
    ∧ ∀ (c : gccontext) (st : store), (c.Finish st).1.2 = st ∧ (c.Finish st).2 = none := by
  refine ⟨by decide, by decide, by decide, by decide, by decide, ?_⟩
  intro c st
  exact ⟨rfl, rfl⟩

/-- C20: for the node of type `ResourceNetwork` with the key `env1/res1`, the
environment `env1` configured and the bucket `res1` stored under it, `Finish`
of the package `network` returns `nil` without calling `Remove` and without
deleting the bucket: `Sscanf` with the format `%s/%s` fails on the key, as it
does on every key, and the node is skipped. -/
theorem env_finish_skips_every_node :
    Sscanf "env1/res1" "%s/%s" = .error (.errorf "unexpected EOF")
    ∧ (envCollector.Remove (gcnode ResourceNetwork "ns1" "env1/res1")).Finish
      = ({ envCollector with gcnodes := [gcnode ResourceNetwork "ns1" "env1/res1"] }, none)
    ∧ mapGet (envCollector.Remove (gcnode ResourceNetwork "ns1" "env1/res1")).Finish.1.envs "env1"
      = some { failing := [], removed := [] }
    ∧ ["ns1", "envs", "env1", "res1"]
        ∈ (envCollector.Remove (gcnode ResourceNetwork "ns1" "env1/res1")).Finish.1.buckets
    ∧ ∀ (rc : EnvResourceCollector),
        rc.Finish.1.envs = rc.envs ∧ rc.Finish.1.buckets = rc.buckets := by
  refine ⟨by decide, by decide, by decide, by decide, ?_⟩
  intro rc
  unfold EnvResourceCollector.Finish DB.Update
  cases rc.db.beginErr with
  | some e => exact ⟨rfl, rfl⟩
  | none =>
    simp only [foldl_envFinishStep]
    cases rc.db.commitErr with
    | some e => exact ⟨rfl, rfl⟩
    | none => exact ⟨rfl, rfl⟩

/-! ## Collection passes -/

theorem mapGet_mapDelete_of_none {α : Type} (m : GoMap α) (k k1 : String)
    (h : mapGet m k = none) : mapGet (mapDelete m k1) k = none := by
  by_cases hk : k = k1
  · subst hk
    exact mapGet_mapDelete_self m k
  · rw [mapGet_mapDelete_ne m k1 k hk]
    exact h

theorem mapGet_mapReplace_self {α : Type} (m : GoMap α) (k : String) (v w : α)
    (h : mapGet m k = some w) : mapGet (mapReplace m k v) k = some v := by
  induction m with
  | nil => simp [mapGet] at h
  | cons p rest ih =>
    obtain ⟨a, b⟩ := p
    have hcons : mapReplace ((a, b) :: rest) k v
        = (if a = k then (k, v) else (a, b)) :: mapReplace rest k v := rfl
    rw [hcons]
    by_cases hk : a = k
    · rw [if_pos hk]
      simp [mapGet]
    · rw [if_neg hk]
      simp only [mapGet, hk, if_false] at h ⊢
      exact ih h

theorem manager_delete_lacks (m : manager) (ctx : Context) (id id1 : String)
    (h : id = id1 ∨ mapGet m.networks id = none) :
    mapGet (m.Delete ctx id1).1.networks id = none := by
  unfold manager.Delete
  cases hg : mapGet m.networks id1 with
  | none =>
    rcases h with h | h
    · subst h
      simpa using hg
    · simpa using h
  | some n =>
    rcases h with h | h
    · subst h
      simpa using mapGet_mapDelete_self m.networks id
    · simpa using mapGet_mapDelete_of_none m.networks id id1 h

theorem finishStep_lacks (ms : GoMap manager) (id id1 : String)
    (h : id = id1 ∨ ∀ m, mapGet ms "default" = some m → mapGet m.networks id = none) :
    ∀ m, mapGet (finishStep ms id1) "default" = some m → mapGet m.networks id = none := by
  intro m hm
  unfold finishStep at hm
  cases hd : mapGet ms "default" with
  | none =>
    rw [hd] at hm
    simp only at hm
    rw [hd] at hm
    cases hm
  | some m0 =>
    rw [hd] at hm
    simp only at hm
    rw [mapGet_mapReplace_self ms "default" _ m0 hd] at hm
    cases hm
    apply manager_delete_lacks
    rcases h with h | h
    · exact Or.inl h
    · exact Or.inr (h m0 hd)

theorem foldl_finishStep_keeps_lacking (l : List String) (ms : GoMap manager) (id : String)
    (h : ∀ m, mapGet ms "default" = some m → mapGet m.networks id = none) :
    ∀ m, mapGet (l.foldl finishStep ms) "default" = some m → mapGet m.networks id = none := by
  induction l generalizing ms with
  | nil => simpa using h
  | cons a rest ih =>
    rw [List.foldl_cons]
    exact ih _ (finishStep_lacks ms id a (Or.inr h))

theorem foldl_finishStep_deletes (l : List String) (ms : GoMap manager) (id : String)
    (hid : id ∈ l) :
    ∀ m, mapGet (l.foldl finishStep ms) "default" = some m → mapGet m.networks id = none := by
  induction l generalizing ms with
  | nil => simp at hid
  | cons a rest ih =>
    rw [List.foldl_cons]
    rcases List.mem_cons.1 hid with h | h
    · exact foldl_finishStep_keeps_lacking rest _ id (finishStep_lacks ms id a (Or.inl h))
    · exact ih _ h

theorem envFinishStep_eq_with (st : GoMap Env × Buckets) (n : Node) :
    envFinishStep st n = envFinishStepWith (fun key => Sscanf key "%s/%s") st n := by
  rfl

theorem mapGet_mapReplace_ne {α : Type} (m : GoMap α) (k k1 : String) (v : α)
    (hne : k1 ≠ k) : mapGet (mapReplace m k v) k1 = mapGet m k1 := by
  induction m with
  | nil => rfl
  | cons p rest ih =>
    obtain ⟨a, b⟩ := p
    have hcons : mapReplace ((a, b) :: rest) k v
        = (if a = k then (k, v) else (a, b)) :: mapReplace rest k v := rfl
    rw [hcons]
    by_cases hk : a = k
    · rw [if_pos hk]
      have h1 : ¬ k = k1 := fun e => hne e.symm
      have h2 : ¬ a = k1 := fun e => hne (e.symm.trans hk)
      simp only [mapGet, h1, h2, if_false]
      exact ih
    · rw [if_neg hk]
      by_cases hk1 : a = k1
      · simp [mapGet, hk1]
      · simp only [mapGet, hk1, if_false]
        exact ih

theorem envRemoveResource_envs (st : GoMap Env × Buckets) (ns eid rid : String) (env : Env)
    (h : mapGet st.1 eid = some env) :
    (envRemoveResource st ns eid rid).1
      = mapReplace st.1 eid { env with removed := env.removed ++ [rid] } := by
  unfold envRemoveResource
  rw [h]
  by_cases hf : rid ∈ env.failing
  · simp [Env.Remove, hf]
  · cases hb : getEnvBucket st.2 ns eid <;> simp [Env.Remove, hf, hb]

theorem envRemoveResource_keeps (st : GoMap Env × Buckets) (ns eid rid k : String) (e : Env)
    (h : mapGet st.1 k = some e) :
    ∃ e1, mapGet (envRemoveResource st ns eid rid).1 k = some e1
      ∧ e1.failing = e.failing ∧ ∀ y ∈ e.removed, y ∈ e1.removed := by
  cases hg : mapGet st.1 eid with
  | none =>
    refine ⟨e, ?_, rfl, fun y hy => hy⟩
    unfold envRemoveResource
    rw [hg]
    exact h
  | some env =>
    rw [envRemoveResource_envs st ns eid rid env hg]
    by_cases hk : k = eid
    · subst hk
      rw [h] at hg
      cases hg
      refine ⟨_, mapGet_mapReplace_self st.1 k _ e h, rfl, ?_⟩
      intro y hy
      exact List.mem_append_left _ hy
    · exact ⟨e, by rw [mapGet_mapReplace_ne st.1 eid k _ hk]; exact h, rfl, fun y hy => hy⟩

theorem envFinishStepWith_keeps (parse : String → Outcome (List String))
    (st : GoMap Env × Buckets) (n : Node) (k : String) (e : Env)
    (h : mapGet st.1 k = some e) :
    ∃ e1, mapGet (envFinishStepWith parse st n).1 k = some e1
      ∧ e1.failing = e.failing ∧ ∀ y ∈ e.removed, y ∈ e1.removed := by
  unfold envFinishStepWith
  split
  · exact ⟨e, h, rfl, fun y hy => hy⟩
  · split
    · exact ⟨e, h, rfl, fun y hy => hy⟩
    · exact ⟨e, h, rfl, fun y hy => hy⟩
    · exact envRemoveResource_keeps st _ _ _ k e h

theorem envFinishStepWith_calls_remove (parse : String → Outcome (List String))
    (st : GoMap Env × Buckets) (n : Node) (eid rid : String) (e : Env)
    (ht : n.Type_ = ResourceNetwork) (hp : parse n.Key = .ok [eid, rid])
    (h : mapGet st.1 eid = some e) :
    ∃ e1, mapGet (envFinishStepWith parse st n).1 eid = some e1
      ∧ e1.failing = e.failing ∧ rid ∈ e1.removed := by
  unfold envFinishStepWith
  rw [if_neg (by simpa using ht), hp]
  simp only [List.getD_cons_zero, List.getD_cons_succ]
  rw [envRemoveResource_envs st n.Namespace eid rid e h]
  exact ⟨_, mapGet_mapReplace_self st.1 eid _ e h, rfl, by simp⟩

theorem foldl_envFinishStepWith_keeps (parse : String → Outcome (List String))
    (nodes : List Node) (st : GoMap Env × Buckets) (k : String) (e : Env)
    (h : mapGet st.1 k = some e) :
    ∃ e1, mapGet (nodes.foldl (envFinishStepWith parse) st).1 k = some e1
      ∧ e1.failing = e.failing ∧ ∀ y ∈ e.removed, y ∈ e1.removed := by
  induction nodes generalizing st e with
  | nil => exact ⟨e, h, rfl, fun y hy => hy⟩
  | cons a rest ih =>
    rw [List.foldl_cons]
    obtain ⟨e1, h1, hf1, hr1⟩ := envFinishStepWith_keeps parse st a k e h
    obtain ⟨e2, h2, hf2, hr2⟩ := ih _ e1 h1
    exact ⟨e2, h2, hf2.trans hf1, fun y hy => hr2 y (hr1 y hy)⟩

theorem foldl_envFinishStepWith_calls_remove (parse : String → Outcome (List String))
    (nodes : List Node) (st : GoMap Env × Buckets) (n : Node) (eid rid : String) (e : Env)
    (hn : n ∈ nodes) (ht : n.Type_ = ResourceNetwork) (hp : parse n.Key = .ok [eid, rid])
    (h : mapGet st.1 eid = some e) :
    ∃ e1, mapGet (nodes.foldl (envFinishStepWith parse) st).1 eid = some e1
      ∧ rid ∈ e1.removed := by
  induction nodes generalizing st e with
  | nil => simp at hn
  | cons a rest ih =>
    rw [List.foldl_cons]
    rcases List.mem_cons.1 hn with hna | hnr
    · subst hna
      obtain ⟨e1, h1, _, hr1⟩ := envFinishStepWith_calls_remove parse st n eid rid e ht hp h
      obtain ⟨e2, h2, _, hr2⟩ := foldl_envFinishStepWith_keeps parse rest _ eid e1 h1
      exact ⟨e2, h2, hr2 rid hr1⟩
    · obtain ⟨e1, h1, _, _⟩ := envFinishStepWith_keeps parse st a eid e h
      exact ih _ e1 hnr h1

/-- C21: `gccontext.Finish` returns `nil` for every list of removed keys and
every state of the managers, and after it no removed key names a network of
the manager `default`, whichever of the other keys failed to delete.  With a
database that opens and commits the transaction, `Finish` of the package
`network` returns `nil` as well, its loop having run over every node.  The
body of that loop is `envFinishStepWith` at the call of `Sscanf`; whatever the
reading of the keys returns, whichever environments fail and whichever buckets
are missing, the loop calls `Remove` for every node whose key reads as an
environment that is configured and a resource.  One node at a time: an unknown
environment changes nothing, a failing `Remove` and a missing bucket leave the
buckets as they are, and otherwise the buckets are those after
`DeleteBucket`. -/
theorem finish_isolates_failures :
    (∀ (c : gccontext) (st : store),
        (c.Finish st).2 = none
        ∧ ∀ id ∈ c.removes, ∀ m, mapGet (c.Finish st).1.1.managers "default" = some m →
            mapGet m.networks id = none)
    ∧ (∀ (rc : EnvResourceCollector), rc.db.beginErr = none → rc.db.commitErr = none →
        rc.Finish.2 = none
        ∧ (rc.Finish.1.envs, rc.Finish.1.buckets)
            = rc.gcnodes.foldl envFinishStep (rc.envs, rc.buckets))
    ∧ (∀ (st : GoMap Env × Buckets) (n : Node),
        envFinishStep st n = envFinishStepWith (fun key => Sscanf key "%s/%s") st n)
    ∧ (∀ (parse : String → Outcome (List String)) (nodes : List Node)
        (st : GoMap Env × Buckets) (n : Node) (eid rid : String) (e : Env),
        n ∈ nodes → n.Type_ = ResourceNetwork → parse n.Key = .ok [eid, rid] →
        mapGet st.1 eid = some e →
        ∃ e1, mapGet (nodes.foldl (envFinishStepWith parse) st).1 eid = some e1
          ∧ rid ∈ e1.removed)
    ∧ (∀ (st : GoMap Env × Buckets) (ns eid rid : String),
        mapGet st.1 eid = none → envRemoveResource st ns eid rid = st)
    ∧ (∀ (st : GoMap Env × Buckets) (ns eid rid : String) (e : Env),
        mapGet st.1 eid = some e → rid ∈ e.failing →
        envRemoveResource st ns eid rid
          = (mapReplace st.1 eid { e with removed := e.removed ++ [rid] }, st.2))
    ∧ (∀ (st : GoMap Env × Buckets) (ns eid rid : String) (e : Env),
        mapGet st.1 eid = some e → rid ∉ e.failing → getEnvBucket st.2 ns eid = none →
        envRemoveResource st ns eid rid
          = (mapReplace st.1 eid { e with removed := e.removed ++ [rid] }, st.2))
    ∧ (∀ (st : GoMap Env × Buckets) (ns eid rid : String) (e : Env) (bkt : List String),
        mapGet st.1 eid = some e → rid ∉ e.failing → getEnvBucket st.2 ns eid = some bkt →
        envRemoveResource st ns eid rid
          = (mapReplace st.1 eid { e with removed := e.removed ++ [rid] },
             (DeleteBucket st.2 bkt rid).1)) := by
  refine ⟨?_, ?_, envFinishStep_eq_with, ?_, ?_, ?_, ?_, ?_⟩
  · intro c st
    refine ⟨rfl, ?_⟩
    intro id hid m hm
    exact foldl_finishStep_deletes c.removes c.managers id hid m hm
  · intro rc hb hc
    unfold EnvResourceCollector.Finish DB.Update
    rw [hb, hc]
    exact ⟨rfl, rfl⟩
  · intro parse nodes st n eid rid e hn ht hp h
    exact foldl_envFinishStepWith_calls_remove parse nodes st n eid rid e hn ht hp h
  · intro st ns eid rid h
    simp [envRemoveResource, h]
  · intro st ns eid rid e h hf
    simp [envRemoveResource, h, Env.Remove, hf]
  · intro st ns eid rid e h hf hb
    simp [envRemoveResource, h, Env.Remove, hf, hb]
  · intro st ns eid rid e bkt h hf hb
    simp [envRemoveResource, h, Env.Remove, hf, hb]

/-- C21, at a concrete input: the keys `nope` (no such network) and `web`
removed on the manager `default`; a node of the package `network` whose key
does not read; and, with a reading that splits `env1/res1`, a loop over a node
of an unknown environment and the node `env1/res1`, after which `res1` is in
the log of `Remove` of `env1`; and the environment failing on `res1`, which
leaves the buckets as they are. -/
theorem finish_isolates_failures_witness :
    "web" ∈ ({ managers := [("default", localDefault.m)], removes := ["nope", "web"] }
        : gccontext).removes
      ∧ mapGet (({ managers := [("default", localDefault.m)], removes := ["nope", "web"] }
            : gccontext).Finish {}).1.1.managers "default"
          = some { name := "default", networks := [("db", netDb)] }
      ∧ mapGet ({ name := "default", networks := [("db", netDb)] } : manager).networks "web"
          = none
      ∧ (envCollector.Remove (gcnode ResourceNetwork "ns1" "env1/res1")).db.beginErr = none
      ∧ (envCollector.Remove (gcnode ResourceNetwork "ns1" "env1/res1")).db.commitErr = none
      ∧ (envCollector.Remove (gcnode ResourceNetwork "ns1" "env1/res1")).Finish.2 = none
      ∧ (∃ e1, mapGet (([gcnode ResourceNetwork "ns1" "env9/res9",
              gcnode ResourceNetwork "ns1" "env1/res1"].foldl
            (envFinishStepWith (fun key =>
              if key = "env1/res1" then .ok ["env1", "res1"]
              else if key = "env9/res9" then .ok ["env9", "res9"]
              else .error (.errorf "unexpected EOF")))
            (envCollector.envs, envCollector.buckets)).1) "env1" = some e1
          ∧ "res1" ∈ e1.removed)
      ∧ envRemoveResource ([("env1", { failing := ["res1"] })], envCollector.buckets)
            "ns1" "env1" "res1"
          = ([("env1", { failing := ["res1"], removed := ["res1"] })], envCollector.buckets) :=
  ⟨by decide, by decide,
    (finish_isolates_failures.1
      { managers := [("default", localDefault.m)], removes := ["nope", "web"] } {}).2
      "web" (by decide) { name := "default", networks := [("db", netDb)] } (by decide),
    by decide, by decide,
    (finish_isolates_failures.2.1 (envCollector.Remove (gcnode ResourceNetwork "ns1" "env1/res1"))
      (by decide) (by decide)).1,
    finish_isolates_failures.2.2.2.1 _
      [gcnode ResourceNetwork "ns1" "env9/res9", gcnode ResourceNetwork "ns1" "env1/res1"]
      (envCollector.envs, envCollector.buckets) (gcnode ResourceNetwork "ns1" "env1/res1")
      "env1" "res1" {} (by decide) (by decide) (by decide) (by decide),
    finish_isolates_failures.2.2.2.2.2.1
      ([("env1", { failing := ["res1"] })], envCollector.buckets) "ns1" "env1" "res1"
      { failing := ["res1"] } (by decide) (by decide)⟩

/-- C22: the context that `StartCollection` of the package `networks` returns
has the managers of the collector and no removal mark.  In the package
`network` the collector is its own context and `Finish` keeps the nodes: after
a pass with one node removed and `Finish` called, `StartCollection` returns a
context that still holds that node; `Cancel` clears it. -/
theorem env_startCollection_keeps_marks :
    (∀ (rc : ResourceCollector) (ctx : Context),
        rc.StartCollection ctx = .ok { managers := rc.managers, removes := [] })
    ∧ EnvResourceCollector.StartCollection
        (envCollector.Remove (gcnode ResourceNetwork "ns1" "env1/res1")).Finish.1 {}
      = .ok { envCollector with gcnodes := [gcnode ResourceNetwork "ns1" "env1/res1"] }
    ∧ EnvResourceCollector.StartCollection
        (envCollector.Remove (gcnode ResourceNetwork "ns1" "env1/res1")).Cancel.1 {}
      = .ok envCollector := by
  refine ⟨fun _ _ => rfl, by decide, by decide⟩

/-- C26: `network.Attach` with the option `WithPluginArg` or
`WithCapabilityArg` panics on the assignment to the `nil` map of the fresh
arguments and persists no record, for every name, value, network and store. -/
theorem attach_with_arg_option_panics :
    netWeb.Attach ctxNs1 [WithPluginArg "k" "v"] {}
      = ({}, .fault "assignment to entry in nil map")
    ∧ netWeb.Attach ctxNs1 [WithCapabilityArg "k" "v"] {}
      = ({}, .fault "assignment to entry in nil map")
    ∧ ∀ (name value ns : String) (tx : Option Tx) (n : network) (s : store),
        n.Attach { ns := some ns, tx := tx } [WithPluginArg name value] s
          = (s, .fault "assignment to entry in nil map")
        ∧ n.Attach { ns := some ns, tx := tx } [WithCapabilityArg name value] s
          = (s, .fault "assignment to entry in nil map") := by
  refine ⟨by decide, by decide, ?_⟩
  intro name value ns tx n s
  exact ⟨rfl, rfl⟩

/-! ## ID maps -/

theorem toHostLoop_first (id : Nat) (pre : List LinuxIDMapping) (m : LinuxIDMapping)
    (post : List LinuxIDMapping)
    (hpre : ∀ e ∈ pre, ¬ (id ≥ e.ContainerID ∧ id ≤ sub32 (add32 e.ContainerID e.Size) 1))
    (hm : id ≥ m.ContainerID ∧ id ≤ sub32 (add32 m.ContainerID m.Size) 1) :
    toHostLoop id (pre ++ m :: post) = (add32 m.HostID (sub32 id m.ContainerID), none) := by
  induction pre with
  | nil => simp [toHostLoop, hm]
  | cons e rest ih =>
    have he := hpre e (List.mem_cons_self _ _)
    have hrest : ∀ x ∈ rest,
        ¬ (id ≥ x.ContainerID ∧ id ≤ sub32 (add32 x.ContainerID x.Size) 1) :=
      fun x hx => hpre x (List.mem_cons_of_mem _ hx)
    rw [List.cons_append, toHostLoop, if_neg he]
    exact ih hrest

theorem toHostLoop_none (id : Nat) (l : List LinuxIDMapping)
    (h : ∀ e ∈ l, ¬ (id ≥ e.ContainerID ∧ id ≤ sub32 (add32 e.ContainerID e.Size) 1)) :
    toHostLoop id l
      = (MaxUint32,
         some (.errorf ("container ID " ++ toString id ++ " cannot be mapped to a host ID"))) := by
  induction l with
  | nil => rfl
  | cons e rest ih =>
    have he := h e (List.mem_cons_self _ _)
    rw [toHostLoop, if_neg he]
    exact ih (fun x hx => h x (List.mem_cons_of_mem _ hx))

theorem range_test_plain (e : LinuxIDMapping) (id : Nat)
    (hw : 1 ≤ e.Size ∧ e.ContainerID + e.Size ≤ 4294967296) :
    (id ≥ e.ContainerID ∧ id ≤ sub32 (add32 e.ContainerID e.Size) 1)
      ↔ ((e.ContainerID : Int) ≤ (id : Int)
          ∧ (id : Int) ≤ (e.ContainerID : Int) + (e.Size : Int) - 1) := by
  simp only [add32, sub32]
  omega

/-- C23, the inputs on which the claim fails, the bounds read in the integers.
The entry of size 0 that starts at 0 contains no ID, 5 neither, and `ToHost`
maps the pair (5, 5) through it to (105, 105) without an error, where the
claim has the error and the pair of `MaxUint32`.  The entry of size 2 that
starts at `MaxUint32` contains `MaxUint32` and is the first one that does, and
`ToHost` returns the error and the pair of `MaxUint32`, where the claim has the
host ID 7.  The entry of size 2 with the host IDs from `MaxUint32` contains the
ID 1, for which the claim has the host ID 2^32, and `ToHost` returns 0. -/
theorem toHost_departs_on_degenerate_entries :
    (∀ e ∈ [({ ContainerID := 0, HostID := 100, Size := 0 } : LinuxIDMapping)],
        ¬ ((e.ContainerID : Int) ≤ ((5 : Nat) : Int)
            ∧ ((5 : Nat) : Int) ≤ (e.ContainerID : Int) + (e.Size : Int) - 1))
    ∧ ({ UidMap := some [{ ContainerID := 0, HostID := 100, Size := 0 }],
         GidMap := some [{ ContainerID := 0, HostID := 100, Size := 0 }] } : IDMap).ToHost
          { Uid := 5, Gid := 5 }
        = ({ Uid := 105, Gid := 105 }, none)
    ∧ (((4294967295 : Nat) : Int) ≤ ((4294967295 : Nat) : Int)
        ∧ ((4294967295 : Nat) : Int) ≤ ((4294967295 : Nat) : Int) + ((2 : Nat) : Int) - 1)
    ∧ ({ UidMap := some [{ ContainerID := 4294967295, HostID := 7, Size := 2 }] } : IDMap).ToHost
          { Uid := 4294967295, Gid := 0 }
        = ({ Uid := MaxUint32, Gid := MaxUint32 },
           some (.errorf "container ID 4294967295 cannot be mapped to a host ID"))
    ∧ (((0 : Nat) : Int) ≤ ((1 : Nat) : Int)
        ∧ ((1 : Nat) : Int) ≤ ((0 : Nat) : Int) + ((2 : Nat) : Int) - 1)
    ∧ ({ UidMap := some [{ ContainerID := 0, HostID := 4294967295, Size := 2 }] } : IDMap).ToHost
          { Uid := 1, Gid := 0 }
        = ({ Uid := 0, Gid := 0 }, none) := by
  refine ⟨?_, by decide, by decide, by decide, by decide, by decide⟩
  intro e he
  simp only [List.mem_singleton] at he
  subst he
  decide

/-- C23, with the entries restricted: `toHost` returns the ID unchanged on a
`nil` map.  On a map whose entries each have a size of at least 1 and stay
within `uint32` (`ContainerID + Size` and `HostID + Size` are at most 2^32),
the bounds read in the integers: when `m` is the first entry with
`m.ContainerID ≤ id ≤ m.ContainerID + m.Size - 1` it returns
`m.HostID + (id - m.ContainerID)`, and when no entry contains the ID it returns
`MaxUint32` and an error.  `ToHost` maps the uid through `UidMap` and the gid
through `GidMap`, and returns the pair of `MaxUint32` with the error as soon as
one of the two fails. -/
theorem toHost_maps_through_first_entry (i : IDMap) (pair : User) :
    (∀ id, toHost id none = (id, none))
    ∧ (∀ (id : Nat) (pre : List LinuxIDMapping) (m : LinuxIDMapping)
        (post : List LinuxIDMapping),
        (∀ e ∈ pre ++ m :: post, 1 ≤ e.Size ∧ e.ContainerID + e.Size ≤ 4294967296
            ∧ e.HostID + e.Size ≤ 4294967296) →
        (∀ e ∈ pre, ¬ ((e.ContainerID : Int) ≤ (id : Int)
            ∧ (id : Int) ≤ (e.ContainerID : Int) + (e.Size : Int) - 1)) →
        ((m.ContainerID : Int) ≤ (id : Int)
            ∧ (id : Int) ≤ (m.ContainerID : Int) + (m.Size : Int) - 1) →
        toHost id (some (pre ++ m :: post)) = (m.HostID + (id - m.ContainerID), none))
    ∧ (∀ (id : Nat) (l : List LinuxIDMapping),
        (∀ e ∈ l, 1 ≤ e.Size ∧ e.ContainerID + e.Size ≤ 4294967296
            ∧ e.HostID + e.Size ≤ 4294967296) →
        (∀ e ∈ l, ¬ ((e.ContainerID : Int) ≤ (id : Int)
            ∧ (id : Int) ≤ (e.ContainerID : Int) + (e.Size : Int) - 1)) →
        toHost id (some l)
          = (MaxUint32,
             some (.errorf
               ("container ID " ++ toString id ++ " cannot be mapped to a host ID"))))
    ∧ (∀ uid gid, toHost pair.Uid i.UidMap = (uid, none) →
        toHost pair.Gid i.GidMap = (gid, none) →
        i.ToHost pair = ({ Uid := uid, Gid := gid }, none))
    ∧ (∀ v err, toHost pair.Uid i.UidMap = (v, some err) →
        i.ToHost pair = ({ Uid := MaxUint32, Gid := MaxUint32 }, some err))
    ∧ (∀ uid v err, toHost pair.Uid i.UidMap = (uid, none) →
        toHost pair.Gid i.GidMap = (v, some err) →
        i.ToHost pair = ({ Uid := MaxUint32, Gid := MaxUint32 }, some err)) := by
  refine ⟨fun _ => rfl, ?_, ?_, ?_, ?_, ?_⟩
  · intro id pre m post hw hpre hm
    have hwm := hw m (by simp)
    have hm1 := (range_test_plain m id ⟨hwm.1, hwm.2.1⟩).2 hm
    have hpre1 : ∀ e ∈ pre,
        ¬ (id ≥ e.ContainerID ∧ id ≤ sub32 (add32 e.ContainerID e.Size) 1) := by
      intro e he hc
      have hwe := hw e (by simp [he])
      exact hpre e he ((range_test_plain e id ⟨hwe.1, hwe.2.1⟩).1 hc)
    have hres : add32 m.HostID (sub32 id m.ContainerID) = m.HostID + (id - m.ContainerID) := by
      simp only [add32, sub32]
      omega
    have h := toHostLoop_first id pre m post hpre1 hm1
    rw [hres] at h
    exact h
  · intro id l hw h
    refine toHostLoop_none id l ?_
    intro e he hc
    have hwe := hw e he
    exact h e he ((range_test_plain e id ⟨hwe.1, hwe.2.1⟩).1 hc)
  · intro uid gid hu hg
    simp [IDMap.ToHost, hu, hg]
  · intro v err hu
    simp [IDMap.ToHost, hu, invalidUser]
  · intro uid v err hu hg
    simp [IDMap.ToHost, hu, hg, invalidUser]

/-- C23, at a concrete input: the map of `TestToHost`, the container pair
(100, 200), whose IDs lie in the second entry of each map. -/
theorem toHost_maps_through_first_entry_witness :
    (∀ e ∈ [({ ContainerID := 0, HostID := 1, Size := 2 } : LinuxIDMapping)]
          ++ { ContainerID := 2, HostID := 4, Size := 1000 } :: [],
        1 ≤ e.Size ∧ e.ContainerID + e.Size ≤ 4294967296 ∧ e.HostID + e.Size ≤ 4294967296)
      ∧ (∀ e ∈ [({ ContainerID := 0, HostID := 1, Size := 2 } : LinuxIDMapping)],
          ¬ ((e.ContainerID : Int) ≤ ((100 : Nat) : Int)
              ∧ ((100 : Nat) : Int) ≤ (e.ContainerID : Int) + (e.Size : Int) - 1))
      ∧ toHost 100 (some ([{ ContainerID := 0, HostID := 1, Size := 2 }]
            ++ { ContainerID := 2, HostID := 4, Size := 1000 } :: []))
          = (({ ContainerID := 2, HostID := 4, Size := 1000 } : LinuxIDMapping).HostID
              + (100 - ({ ContainerID := 2, HostID := 4, Size := 1000 }
                  : LinuxIDMapping).ContainerID),
             none)
      ∧ toHost 100 testIDMap.UidMap = (102, none)
      ∧ toHost 200 testIDMap.GidMap = (204, none)
      ∧ testIDMap.ToHost { Uid := 100, Gid := 200 } = ({ Uid := 102, Gid := 204 }, none) :=
  ⟨by decide, by decide,
    (toHost_maps_through_first_entry testIDMap { Uid := 100, Gid := 200 }).2.1 100
      [{ ContainerID := 0, HostID := 1, Size := 2 }]
      { ContainerID := 2, HostID := 4, Size := 1000 } [] (by decide) (by decide) (by decide),
    by decide, by decide,
    (toHost_maps_through_first_entry testIDMap { Uid := 100, Gid := 200 }).2.2.2.1 102 204
      (by decide) (by decide)⟩

/-- C25, the input on which the claim fails: the `UidMap` with the one entry
of size 0 that starts at the container ID 0 is not `nil` and no entry of it
contains the container ID 0, the bounds read in the integers (the upper bound
is -1); `RootPair` returns the pair (100, 0) and no error. -/
theorem rootPair_succeeds_on_size_zero_entry :
    (∀ e ∈ [({ ContainerID := 0, HostID := 100, Size := 0 } : LinuxIDMapping)],
        ¬ ((e.ContainerID : Int) ≤ ((0 : Nat) : Int)
            ∧ ((0 : Nat) : Int) ≤ (e.ContainerID : Int) + (e.Size : Int) - 1))
    ∧ ({ UidMap := some [{ ContainerID := 0, HostID := 100, Size := 0 }] } : IDMap).RootPair
        = ({ Uid := 100, Gid := 0 }, none) := by
  refine ⟨?_, by decide⟩
  intro e he
  simp only [List.mem_singleton] at he
  subst he
  decide

/-- C25, with the entries restricted: `RootPair` returns what `ToHost` returns
on the pair (0, 0), value and error alike; with a `UidMap` that is not `nil`,
whose entries each have a size of at least 1 and none of which contains the
container ID 0 (`ContainerID ≤ 0 ≤ ContainerID + Size - 1` in the integers), it
returns the pair of `MaxUint32` and the error `container ID 0 cannot be mapped
to a host ID`. -/
theorem rootPair_eq_toHost_zero (i : IDMap) :
    i.RootPair = i.ToHost { Uid := 0, Gid := 0 }
    ∧ ∀ l, i.UidMap = some l →
        (∀ e ∈ l, 1 ≤ e.Size) →
        (∀ e ∈ l, ¬ ((e.ContainerID : Int) ≤ ((0 : Nat) : Int)
            ∧ ((0 : Nat) : Int) ≤ (e.ContainerID : Int) + (e.Size : Int) - 1)) →
        i.RootPair
          = ({ Uid := MaxUint32, Gid := MaxUint32 },
             some (.errorf "container ID 0 cannot be mapped to a host ID")) := by
  refine ⟨rfl, ?_⟩
  intro l hl hw h
  have h1 : ∀ e ∈ l, ¬ (0 ≥ e.ContainerID ∧ 0 ≤ sub32 (add32 e.ContainerID e.Size) 1) := by
    intro e he hc
    have hs := hw e he
    apply h e he
    have h0 : e.ContainerID = 0 := by omega
    constructor
    · omega
    · omega
  have h0 := toHostLoop_none 0 l h1
  have hmsg : "container ID " ++ toString 0 ++ " cannot be mapped to a host ID"
      = "container ID 0 cannot be mapped to a host ID" := by decide
  rw [hmsg] at h0
  simp [IDMap.RootPair, toHost, hl, h0, invalidUser]

/-- C25, at a concrete input: the failing map of `TestRootPair`, with the one
entry that starts at the container ID 1. -/
theorem rootPair_eq_toHost_zero_witness :
    ({ UidMap := some [{ ContainerID := 1, HostID := 1000, Size := 1 }] } : IDMap).UidMap
        = some [{ ContainerID := 1, HostID := 1000, Size := 1 }]
      ∧ (∀ e ∈ [({ ContainerID := 1, HostID := 1000, Size := 1 } : LinuxIDMapping)], 1 ≤ e.Size)
      ∧ (∀ e ∈ [({ ContainerID := 1, HostID := 1000, Size := 1 } : LinuxIDMapping)],
          ¬ ((e.ContainerID : Int) ≤ ((0 : Nat) : Int)
              ∧ ((0 : Nat) : Int) ≤ (e.ContainerID : Int) + (e.Size : Int) - 1))
      ∧ ({ UidMap := some [{ ContainerID := 1, HostID := 1000, Size := 1 }] } : IDMap).RootPair
          = ({ Uid := MaxUint32, Gid := MaxUint32 },
             some (.errorf "container ID 0 cannot be mapped to a host ID")) :=
  ⟨rfl, by decide, by decide,
    (rootPair_eq_toHost_zero
      { UidMap := some [{ ContainerID := 1, HostID := 1000, Size := 1 }] }).2
      [{ ContainerID := 1, HostID := 1000, Size := 1 }] rfl (by decide) (by decide)⟩

/-- C29: the entry of size 0 that starts at the container ID 0 matches the
container ID 5 in `toHost`, and the entry of size 0 that starts at the host ID
0 matches the host ID 5 in `toContainer`: the upper bound 0 + 0 - 1 is
`MaxUint32` in `uint32` arithmetic.  An entry of size 0 that starts at 3 does
not match. -/
theorem size_zero_entry_at_zero_matches_every_id :
    sub32 (add32 0 0) 1 = MaxUint32
    ∧ toHost 5 (some [{ ContainerID := 0, HostID := 100, Size := 0 }]) = (105, none)
    ∧ toContainer 5 (some [{ ContainerID := 100, HostID := 0, Size := 0 }]) = (105, none)
    ∧ toHost 4294967295 (some [{ ContainerID := 0, HostID := 100, Size := 0 }]) = (99, none)
    ∧ toHost 5 (some [{ ContainerID := 3, HostID := 100, Size := 0 }])
      = (MaxUint32, some (.errorf "container ID 5 cannot be mapped to a host ID")) := by
  decide

theorem toHostLoop_ok (c h : Nat) (l : List LinuxIDMapping)
    (hl : toHostLoop c l = (h, none)) :
    ∃ m ∈ l, (c ≥ m.ContainerID ∧ c ≤ sub32 (add32 m.ContainerID m.Size) 1)
      ∧ h = add32 m.HostID (sub32 c m.ContainerID) := by
  induction l with
  | nil => simp [toHostLoop] at hl
  | cons e rest ih =>
    rw [toHostLoop] at hl
    by_cases he : c ≥ e.ContainerID ∧ c ≤ sub32 (add32 e.ContainerID e.Size) 1
    · rw [if_pos he] at hl
      refine ⟨e, List.mem_cons_self _ _, he, ?_⟩
      exact (congrArg Prod.fst hl).symm
    · rw [if_neg he] at hl
      obtain ⟨m, hm, hc, hh⟩ := ih hl
      exact ⟨m, List.mem_cons_of_mem _ hm, hc, hh⟩

theorem toContainerLoop_of_mem (h : Nat) (l : List LinuxIDMapping) (m : LinuxIDMapping)
    (hok : ∀ e ∈ l, 1 ≤ e.Size ∧ e.ContainerID + e.Size ≤ 4294967296
        ∧ e.HostID + e.Size ≤ 4294967296)
    (hpw : l.Pairwise (fun a b => a.HostID + a.Size ≤ b.HostID ∨ b.HostID + b.Size ≤ a.HostID))
    (hm : m ∈ l) (hlo : m.HostID ≤ h) (hhi : h < m.HostID + m.Size) :
    toContainerLoop h l = (add32 m.ContainerID (sub32 h m.HostID), none) := by
  induction l with
  | nil => simp at hm
  | cons a rest ih =>
    obtain ⟨hhead, hrest⟩ := List.pairwise_cons.1 hpw
    have ha := hok a (List.mem_cons_self _ _)
    rw [toContainerLoop]
    by_cases hc : h ≥ a.HostID ∧ h ≤ sub32 (add32 a.HostID a.Size) 1
    · rw [if_pos hc]
      rcases List.mem_cons.1 hm with hma | hmr
      · rw [hma]
      · exfalso
        have hd := hhead m hmr
        simp only [add32, sub32] at hc
        omega
    · rw [if_neg hc]
      rcases List.mem_cons.1 hm with hma | hmr
      · exfalso
        apply hc
        rw [← hma]
        have hmok := hok m hm
        simp only [add32, sub32]
        omega
      · exact ih (fun e he => hok e (List.mem_cons_of_mem _ he)) hrest hmr

theorem toHost_toContainer_one (c h : Nat) (mp : Option (List LinuxIDMapping))
    (hmp : roundTripMap mp) (hto : toHost c mp = (h, none)) :
    toContainer h mp = (c, none) := by
  cases mp with
  | none =>
    simp only [toHost, Prod.mk.injEq, and_true] at hto
    simp [toContainer, hto]
  | some l =>
    obtain ⟨hok, hpw⟩ := hmp
    obtain ⟨m, hm, hc, hh⟩ := toHostLoop_ok c h l hto
    have hmok := hok m hm
    have hlo : m.HostID ≤ h := by
      simp only [add32, sub32] at hc hh
      omega
    have hhi : h < m.HostID + m.Size := by
      simp only [add32, sub32] at hc hh
      omega
    have hres := toContainerLoop_of_mem h l m hok hpw hm hlo hhi
    have hback : add32 m.ContainerID (sub32 h m.HostID) = c := by
      simp only [add32, sub32] at hc hh ⊢
      omega
    rw [hback] at hres
    exact hres

/-- C24: for an ID map whose `UidMap` and `GidMap` each are `nil` or consist
of entries of size at least 1 that end at 2^32 at most on the container and on
the host side and whose host ranges are pairwise disjoint, and for every
container pair `p`: if `ToHost p` succeeds with `h`, then `ToContainer h`
succeeds and returns `p`. -/
theorem toContainer_inverts_toHost (i : IDMap) (p h : User)
    (hu : roundTripMap i.UidMap) (hg : roundTripMap i.GidMap)
    (hto : i.ToHost p = (h, none)) :
    i.ToContainer h = (p, none) := by
  unfold IDMap.ToHost at hto
  rcases hU : toHost p.Uid i.UidMap with ⟨uid, eu⟩
  rw [hU] at hto
  cases eu with
  | some e => simp at hto
  | none =>
    simp only at hto
    rcases hG : toHost p.Gid i.GidMap with ⟨gid, eg⟩
    rw [hG] at hto
    cases eg with
    | some e => simp at hto
    | none =>
      simp only [Prod.mk.injEq, and_true] at hto
      have h1 := toHost_toContainer_one p.Uid uid i.UidMap hu hU
      have h2 := toHost_toContainer_one p.Gid gid i.GidMap hg hG
      subst hto
      simp [IDMap.ToContainer, h1, h2]

/-- C24, at a concrete input: the map of the two tests and the container pair
(1001, 1003), row five of both tables. -/
theorem toContainer_inverts_toHost_witness :
    roundTripMap testIDMap.UidMap
      ∧ roundTripMap testIDMap.GidMap
      ∧ testIDMap.ToHost { Uid := 1001, Gid := 1003 } = ({ Uid := 1003, Gid := 1007 }, none)
      ∧ testIDMap.ToContainer { Uid := 1003, Gid := 1007 }
          = ({ Uid := 1001, Gid := 1003 }, none) :=
  ⟨by unfold roundTripMap testIDMap; decide, by unfold roundTripMap testIDMap; decide,
    by decide,
    toContainer_inverts_toHost testIDMap { Uid := 1001, Gid := 1003 }
      { Uid := 1003, Gid := 1007 } (by unfold roundTripMap testIDMap; decide)
      (by unfold roundTripMap testIDMap; decide) (by decide)⟩

/-! ## Attachment IDs, client side, configurations -/

theorem split_at_slash (a b x y : List Char) (ha : '/' ∉ a) (hb : '/' ∉ b)
    (h : a ++ '/' :: x = b ++ '/' :: y) : a = b ∧ x = y := by
  induction a generalizing b with
  | nil =>
    cases b with
    | nil => simpa using h
    | cons d b1 =>
      exfalso
      simp only [List.nil_append, List.cons_append, List.cons.injEq] at h
      exact hb (by rw [← h.1]; exact List.mem_cons_self _ _)
  | cons c a1 ih =>
    cases b with
    | nil =>
      exfalso
      simp only [List.nil_append, List.cons_append, List.cons.injEq] at h
      exact ha (by rw [h.1]; exact List.mem_cons_self _ _)
    | cons d b1 =>
      simp only [List.cons_append, List.cons.injEq] at h
      have ha1 : '/' ∉ a1 := fun hm => ha (List.mem_cons_of_mem _ hm)
      have hb1 : '/' ∉ b1 := fun hm => hb (List.mem_cons_of_mem _ hm)
      obtain ⟨hab, hxy⟩ := ih b1 ha1 hb1 h.2
      exact ⟨by rw [h.1, hab], hxy⟩

/-- C27: for two tuples of manager, network, namespace, container and
interface name in which no component contains the character `/`,
`generateAttachmentID` yields equal IDs only if the tuples are equal component
by component. -/
theorem generateAttachmentID_injective (m n ns c i m1 n1 ns1 c1 i1 : String)
    (hno : ∀ s ∈ [m, n, ns, c, i, m1, n1, ns1, c1, i1], '/' ∉ s.data)
    (h : generateAttachmentID m n ns c i = generateAttachmentID m1 n1 ns1 c1 i1) :
    m = m1 ∧ n = n1 ∧ ns = ns1 ∧ c = c1 ∧ i = i1 := by
  rw [generateAttachmentID_eq, generateAttachmentID_eq] at h
  have hd := congrArg String.data h
  simp only [String.data_append, List.append_assoc, List.singleton_append,
    show "/".data = ['/'] from rfl] at hd
  have hm := hno m (by simp)
  have hn := hno n (by simp)
  have hns := hno ns (by simp)
  have hc := hno c (by simp)
  have hm1 := hno m1 (by simp)
  have hn1 := hno n1 (by simp)
  have hns1 := hno ns1 (by simp)
  have hc1 := hno c1 (by simp)
  obtain ⟨e1, r1⟩ := split_at_slash _ _ _ _ hm hm1 hd
  obtain ⟨e2, r2⟩ := split_at_slash _ _ _ _ hn hn1 r1
  obtain ⟨e3, r3⟩ := split_at_slash _ _ _ _ hns hns1 r2
  obtain ⟨e4, r4⟩ := split_at_slash _ _ _ _ hc hc1 r3
  exact ⟨String.ext e1, String.ext e2, String.ext e3, String.ext e4, String.ext r4⟩

/-- C27, at a concrete input: the tuple of the attachment of `web` taken
twice. -/
theorem generateAttachmentID_injective_witness :
    (∀ s ∈ ["default", "web", "ns1", "c1", "eth0", "default", "web", "ns1", "c1", "eth0"],
        '/' ∉ s.data)
      ∧ generateAttachmentID "default" "web" "ns1" "c1" "eth0"
          = generateAttachmentID "default" "web" "ns1" "c1" "eth0"
      ∧ ("default" = "default" ∧ "web" = "web" ∧ "ns1" = "ns1" ∧ "c1" = "c1"
          ∧ "eth0" = "eth0") :=
  ⟨by decide, rfl,
    generateAttachmentID_injective "default" "web" "ns1" "c1" "eth0"
      "default" "web" "ns1" "c1" "eth0" (by decide) rfl⟩

/-- C28: the client-side manager bound to `default`, asked to delete the
network `web`, sends `DeleteNetwork` for the network named `default`: the call
fails and `web` stays registered, while the client-side `Delete` of the
network `web` removes it.  The result of the manager does not depend on the
name it is given. -/
theorem client_manager_delete_sends_manager_name :
    clientManager.Delete (NewNetworkManager "default" clientDefault) ctxNs1 "web" svcDefault
      = (svcDefault,
         .error (.wrapf ": unknown: " (.errdef .Unknown)))
    ∧ (clientManager.Delete (NewNetworkManager "default" clientDefault) ctxNs1 "web"
          svcDefault).1
      = (proxy.DeleteNetwork { manager := "default" } ctxNs1 "default" svcDefault).1
    ∧ clientNetwork.Delete
        { NetworkInfo := { Manager := "default", Name := "web" }, client := clientDefault }
        ctxNs1 svcDefault
      = proxy.DeleteNetwork { manager := "default" } ctxNs1 "web" svcDefault
    ∧ clientNetwork.Delete
        { NetworkInfo := { Manager := "default", Name := "web" }, client := clientDefault }
        ctxNs1 svcDefault
      = ({ locals := [("default",
            { name := "default", m := { name := "default", networks := [("db", netDb)] } })] },
         .ok ())
    ∧ ∀ (m : clientManager) (ctx : Context) (x y : String) (remote : service),
        m.Delete ctx x remote = m.Delete ctx y remote := by
  refine ⟨by decide, by decide, by decide, by decide, ?_⟩
  intro m ctx x y remote
  rfl

/-- C30: with the three constants of the RPC enum pairwise distinct,
`toNetworkConfig (fromNetworkConfig c)` is `c` for a configuration whose type
is `Invalid`, `Conf` or `ConfList`; for any other type it has the type
`Invalid` and the bytes of `c`. -/
theorem toNetworkConfig_fromNetworkConfig (k : ApiConfigTypes) (c : NetworkConfig)
    (h1 : k.NC_UNKNOWN ≠ k.NC_CONF) (h2 : k.NC_UNKNOWN ≠ k.NC_CONFLIST)
    (h3 : k.NC_CONF ≠ k.NC_CONFLIST) :
    ((c.Type_ = NetworkConfigInvalid ∨ c.Type_ = NetworkConfigConf
        ∨ c.Type_ = NetworkConfigConfList) →
      toNetworkConfig k (fromNetworkConfig k c) = c)
    ∧ ((c.Type_ ≠ NetworkConfigInvalid ∧ c.Type_ ≠ NetworkConfigConf
        ∧ c.Type_ ≠ NetworkConfigConfList) →
      toNetworkConfig k (fromNetworkConfig k c)
        = { Type_ := NetworkConfigInvalid, Bytes := c.Bytes }) := by
  obtain ⟨t, b⟩ := c
  have h3' : ¬ k.NC_CONFLIST = k.NC_CONF := fun e => h3 e.symm
  constructor
  · intro h
    rcases h with h | h | h
    · simp only at h
      subst h
      simp [toNetworkConfig, fromNetworkConfig, NetworkConfigInvalid, NetworkConfigConf,
        NetworkConfigConfList, h1, h2]
    · simp only at h
      subst h
      simp [toNetworkConfig, fromNetworkConfig, NetworkConfigConf]
    · simp only at h
      subst h
      simp [toNetworkConfig, fromNetworkConfig, NetworkConfigConf, NetworkConfigConfList, h3']
  · intro h
    obtain ⟨_, hb, hc⟩ := h
    simp only at hb hc
    simp [toNetworkConfig, fromNetworkConfig, hb, hc, h1, h2]

/-- C30, at a concrete input: the constants 0, 1, 2 and a `ConfList`
configuration, and a configuration of the type 7. -/
theorem toNetworkConfig_fromNetworkConfig_witness :
    ({ NC_UNKNOWN := 0, NC_CONF := 1, NC_CONFLIST := 2 } : ApiConfigTypes).NC_UNKNOWN
        ≠ ({ NC_UNKNOWN := 0, NC_CONF := 1, NC_CONFLIST := 2 } : ApiConfigTypes).NC_CONF
      ∧ (({ Type_ := 7, Bytes := [1, 2] } : NetworkConfig).Type_ ≠ NetworkConfigInvalid
          ∧ ({ Type_ := 7, Bytes := [1, 2] } : NetworkConfig).Type_ ≠ NetworkConfigConf
          ∧ ({ Type_ := 7, Bytes := [1, 2] } : NetworkConfig).Type_ ≠ NetworkConfigConfList)
      ∧ toNetworkConfig { NC_UNKNOWN := 0, NC_CONF := 1, NC_CONFLIST := 2 }
          (fromNetworkConfig { NC_UNKNOWN := 0, NC_CONF := 1, NC_CONFLIST := 2 }
            { Type_ := 7, Bytes := [1, 2] })
        = { Type_ := NetworkConfigInvalid,
            Bytes := ({ Type_ := 7, Bytes := [1, 2] } : NetworkConfig).Bytes }
      ∧ toNetworkConfig { NC_UNKNOWN := 0, NC_CONF := 1, NC_CONFLIST := 2 }
          (fromNetworkConfig { NC_UNKNOWN := 0, NC_CONF := 1, NC_CONFLIST := 2 }
            { Type_ := NetworkConfigConfList, Bytes := [1, 2] })
        = { Type_ := NetworkConfigConfList, Bytes := [1, 2] } :=
  ⟨by decide, by decide,
    (toNetworkConfig_fromNetworkConfig { NC_UNKNOWN := 0, NC_CONF := 1, NC_CONFLIST := 2 }
      { Type_ := 7, Bytes := [1, 2] } (by decide) (by decide) (by decide)).2 (by decide),
    (toNetworkConfig_fromNetworkConfig { NC_UNKNOWN := 0, NC_CONF := 1, NC_CONFLIST := 2 }
      { Type_ := NetworkConfigConfList, Bytes := [1, 2] } (by decide) (by decide)
      (by decide)).1 (Or.inr (Or.inr rfl))⟩

end Containerd
